import Mathlib

/-!
Verification of the taskbot notification scheduling and delivery-deduplication
engine (`app/services/scheduler_service.py`, `app/utils/datetime_utils.py`,
`app/services/task_service.py`, `app/db/models.py`).

Embedding conventions:
- Instants are UTC epoch values in whole seconds (`Int`), matching the code's
  timezone-aware `datetime` values at second granularity.
- A user's timezone (an IANA name resolved through `ZoneInfo` in the code) is
  embedded as a fixed UTC offset in seconds; `astimezone` becomes addition of
  the offset.
- Python `//` on integers is floor division; all divisors appearing in the
  translation are positive, where Lean's `Int` `/` (Euclidean) agrees with
  floor division.
- The notifier (`bot.send_message`) is an oracle `Nat → String → Bool` giving
  the success of sending a given text to a given chat id; the storage layer's
  possible duplicate-key violation on inserting a ledger row is an oracle
  `String → Bool` on the dedupe key. A violation makes the flush raise and,
  because the failed flush invalidates the session's transaction, the blanket
  handler's own follow-up flush raises a pending-rollback error that escapes
  the loop body: the scan loops are therefore modelled both as plain folds
  (`process_reminders`, `process_digest`, exercised when no violation occurs)
  and as exception-aware folds (`process_remindersE`, `process_digestE`) that
  stop at the first escaping exception, with the session committed on normal
  completion and rolled back otherwise (`run_remindersE`, `run_digestE`).
- Database rows (`Task`, `User`, `Board`, `NotificationLog`) are structures;
  the store is lists of rows; SQL joins via primary key become `List.find?`,
  which is faithful under the primary-key `Nodup` hypotheses stated in the
  theorems.
-/

/-! ### Decimal rendering of integers (Python `str` on `int`) -/

/-- The character for a single decimal digit `x % 10`. -/
def digitChar10 (x : Nat) : Char :=
  match x % 10 with
  | 0 => '0' | 1 => '1' | 2 => '2' | 3 => '3' | 4 => '4'
  | 5 => '5' | 6 => '6' | 7 => '7' | 8 => '8' | _ => '9'

/-- Decimal digit list of a natural number, most significant first.
Fuel-based so that it is structurally recursive; `fuel > n` suffices. -/
def natDigitsAux : Nat → Nat → List Char
  | 0, _ => []
  | f + 1, n => if n < 10 then [digitChar10 n] else natDigitsAux f (n / 10) ++ [digitChar10 (n % 10)]

/-- Decimal rendering of a natural number, as produced by Python `str`. -/
def natDecimal (n : Nat) : String :=
  String.mk (natDigitsAux (n + 1) n)

/-- Decimal rendering of an integer, as produced by Python `str`. -/
def intDecimal (i : Int) : String :=
  if i < 0 then "-" ++ natDecimal (-i).toNat else natDecimal i.toNat

theorem digitChar10_isDigit (x : Nat) : (digitChar10 x).isDigit = true := by
  have h : x % 10 < 10 := Nat.mod_lt _ (by omega)
  unfold digitChar10
  have h10 : x % 10 = 0 ∨ x % 10 = 1 ∨ x % 10 = 2 ∨ x % 10 = 3 ∨ x % 10 = 4 ∨
      x % 10 = 5 ∨ x % 10 = 6 ∨ x % 10 = 7 ∨ x % 10 = 8 ∨ x % 10 = 9 := by omega
  rcases h10 with h' | h' | h' | h' | h' | h' | h' | h' | h' | h' <;> simp [h']

theorem natDigitsAux_ne_nil (f n : Nat) (h : n < f) : natDigitsAux f n ≠ [] := by
  match f with
  | 0 => omega
  | f + 1 =>
    unfold natDigitsAux
    by_cases hn : n < 10 <;> simp [hn]

/-- Every character of the decimal rendering is a digit. -/
theorem natDigitsAux_digits (f n : Nat) : ∀ c ∈ natDigitsAux f n, c.isDigit = true := by
  induction f generalizing n with
  | zero => intro c hc; simp [natDigitsAux] at hc
  | succ f ih =>
    intro c hc
    unfold natDigitsAux at hc
    by_cases hn : n < 10
    · simp [hn] at hc; subst hc; exact digitChar10_isDigit n
    · simp [hn] at hc
      rcases hc with hc | hc
      · exact ih _ _ hc
      · subst hc; exact digitChar10_isDigit _

theorem colon_not_digit : (':' : Char).isDigit = false := by decide

theorem natDigitsAux_no_colon (f n : Nat) : ':' ∉ natDigitsAux f n := by
  intro h
  have := natDigitsAux_digits f n ':' h
  simp [colon_not_digit] at this

theorem digitChar10_mod (x : Nat) : digitChar10 (x % 10) = digitChar10 x := by
  unfold digitChar10
  congr 1
  omega

theorem digitChar10_inj (x y : Nat) (h : digitChar10 x = digitChar10 y) : x % 10 = y % 10 := by
  have hx : x % 10 < 10 := Nat.mod_lt _ (by omega)
  have hy : y % 10 < 10 := Nat.mod_lt _ (by omega)
  have key : ∀ a, a < 10 → ∀ b, b < 10 → digitChar10 a = digitChar10 b → a = b := by decide
  refine key _ hx _ hy ?_
  rw [digitChar10_mod, digitChar10_mod]
  exact h

theorem natDigitsAux_fuel (f₁ f₂ n : Nat) (h₁ : n < f₁) (h₂ : n < f₂) :
    natDigitsAux f₁ n = natDigitsAux f₂ n := by
  induction f₁ generalizing f₂ n with
  | zero => omega
  | succ f ih =>
    match f₂ with
    | 0 => omega
    | g + 1 =>
      unfold natDigitsAux
      by_cases hn : n < 10
      · simp [hn]
      · simp only [hn, if_false]
        have hd : n / 10 < f := by omega
        have hd' : n / 10 < g := by omega
        rw [ih g (n / 10) hd hd']

theorem natDigitsAux_inj (f₁ f₂ n m : Nat) (h₁ : n < f₁) (h₂ : m < f₂)
    (h : natDigitsAux f₁ n = natDigitsAux f₂ m) : n = m := by
  induction f₁ generalizing f₂ n m with
  | zero => omega
  | succ f ih =>
    match f₂ with
    | 0 => omega
    | g + 1 =>
      unfold natDigitsAux at h
      by_cases hn : n < 10 <;> by_cases hm : m < 10
      · simp [hn, hm] at h
        have := digitChar10_inj n m h
        omega
      · simp only [hn, if_true, hm, if_false] at h
        have hne := natDigitsAux_ne_nil g (m / 10) (by omega)
        have hlen := congrArg List.length h
        rw [List.length_append] at hlen
        simp only [List.length_cons, List.length_nil] at hlen
        exact absurd (List.eq_nil_of_length_eq_zero (by omega)) hne
      · simp only [hn, if_false, hm, if_true] at h
        have hne := natDigitsAux_ne_nil f (n / 10) (by omega)
        have hlen := congrArg List.length h
        rw [List.length_append] at hlen
        simp only [List.length_cons, List.length_nil] at hlen
        exact absurd (List.eq_nil_of_length_eq_zero (by omega)) hne
      · simp only [hn, if_false, hm, if_false] at h
        obtain ⟨hpre, hlast⟩ := List.append_inj' h (by simp)
        have hdig : n % 10 % 10 = m % 10 % 10 := by
          simp only [List.cons.injEq, and_true] at hlast
          exact digitChar10_inj _ _ hlast
        have := ih g (n / 10) (m / 10) (by omega) (by omega) hpre
        omega

theorem natDecimal_inj (n m : Nat) (h : natDecimal n = natDecimal m) : n = m := by
  unfold natDecimal at h
  have h' : natDigitsAux (n + 1) n = natDigitsAux (m + 1) m := by
    have := congrArg String.data h
    simpa using this
  exact natDigitsAux_inj _ _ _ _ (by omega) (by omega) h'

theorem natDecimal_no_colon (n : Nat) : ':' ∉ (natDecimal n).data := by
  unfold natDecimal
  exact natDigitsAux_no_colon _ _

/-- Splitting a colon-separated concatenation at the first colon. -/
theorem colon_split :
    ∀ l₁ l₂ r₁ r₂ : List Char, ':' ∉ l₁ → ':' ∉ l₂ →
      l₁ ++ ':' :: r₁ = l₂ ++ ':' :: r₂ → l₁ = l₂ ∧ r₁ = r₂ := by
  intro l₁
  induction l₁ with
  | nil =>
    intro l₂ r₁ r₂ h₁ h₂ h
    cases l₂ with
    | nil => simpa using h
    | cons c cs =>
      simp only [List.nil_append, List.cons_append, List.cons.injEq] at h
      exact absurd (by rw [h.1]; exact List.mem_cons_self c cs) h₂
  | cons c cs ih =>
    intro l₂ r₁ r₂ h₁ h₂ h
    cases l₂ with
    | nil =>
      simp only [List.cons_append, List.nil_append, List.cons.injEq] at h
      exact absurd (by rw [← h.1]; exact List.mem_cons_self c cs) h₁
    | cons d ds =>
      simp only [List.cons_append, List.cons.injEq] at h
      obtain ⟨hcd, htail⟩ := h
      have h₁' : ':' ∉ cs := fun hc => h₁ (List.mem_cons_of_mem _ hc)
      have h₂' : ':' ∉ ds := fun hc => h₂ (List.mem_cons_of_mem _ hc)
      have := ih ds r₁ r₂ h₁' h₂' htail
      exact ⟨by rw [hcd, this.1], this.2⟩

/-! ### Proleptic Gregorian calendar (Python `datetime.date`)

Day numbers count days since 0001-01-01 (Python ordinal minus one); the
conversion walks years with explicit fuel so that it is structurally
recursive and kernel-computable. For fuel greater than the day number the
walk always terminates in the `doy < daysInYear` branch, so the fuel-zero
fallback is unreachable. -/

def isLeapYear (y : Nat) : Bool :=
  y % 4 == 0 && (y % 100 != 0 || y % 400 == 0)

def daysInYear (y : Nat) : Nat := if isLeapYear y then 366 else 365

theorem daysInYear_ge (y : Nat) : 365 ≤ daysInYear y := by
  unfold daysInYear; by_cases h : isLeapYear y <;> simp [h]

theorem daysInYear_le (y : Nat) : daysInYear y ≤ 366 := by
  unfold daysInYear; by_cases h : isLeapYear y <;> simp [h]

def yearDoyAux : Nat → Nat → Nat → Nat × Nat
  | 0, y, n => (y, n)
  | f + 1, y, n => if n < daysInYear y then (y, n) else yearDoyAux f (y + 1) (n - daysInYear y)

/-- Year (1-based) and zero-based day of year of a day number. -/
def yearDoy (n : Nat) : Nat × Nat := yearDoyAux (n + 1) 1 n

/-- Total number of days in the `k` consecutive years starting at year `y`. -/
def yearSpanDays : Nat → Nat → Nat
  | _, 0 => 0
  | y, k + 1 => daysInYear y + yearSpanDays (y + 1) k

theorem yearSpanDays_succ (y k : Nat) :
    yearSpanDays y (k + 1) = daysInYear y + yearSpanDays (y + 1) k := rfl

theorem yearSpanDays_add (y a b : Nat) :
    yearSpanDays y (a + b) = yearSpanDays y a + yearSpanDays (y + a) b := by
  induction a generalizing y with
  | zero => simp [yearSpanDays]
  | succ a ih =>
    have : a + 1 + b = (a + b) + 1 := by omega
    rw [this, yearSpanDays_succ, yearSpanDays_succ, ih (y + 1)]
    have : y + 1 + a = y + (a + 1) := by omega
    rw [this]
    omega

theorem yearSpanDays_mono (y : Nat) {k₁ k₂ : Nat} (h : k₁ ≤ k₂) :
    yearSpanDays y k₁ ≤ yearSpanDays y k₂ := by
  have : k₂ = k₁ + (k₂ - k₁) := by omega
  rw [this, yearSpanDays_add]
  omega

/-- Characterization of the year walk: for sufficient fuel it returns the
unique year containing the day, together with the day-of-year offset. -/
theorem yearDoyAux_char (f : Nat) :
    ∀ y n, n < f →
      y ≤ (yearDoyAux f y n).1 ∧
      (yearDoyAux f y n).2 < daysInYear (yearDoyAux f y n).1 ∧
      yearSpanDays y ((yearDoyAux f y n).1 - y) + (yearDoyAux f y n).2 = n := by
  induction f with
  | zero => intro y n h; omega
  | succ f ih =>
    intro y n h
    unfold yearDoyAux
    by_cases hn : n < daysInYear y
    · refine ⟨by simp [hn], by simp [hn], by simp [hn, yearSpanDays]⟩
    · simp only [hn, if_false]
      have h365 := daysInYear_ge y
      have hn' : n - daysInYear y < f := by omega
      obtain ⟨hy, hd, hs⟩ := ih (y + 1) (n - daysInYear y) hn'
      refine ⟨by omega, hd, ?_⟩
      have hk : (yearDoyAux f (y + 1) (n - daysInYear y)).1 - y =
          1 + ((yearDoyAux f (y + 1) (n - daysInYear y)).1 - (y + 1)) := by omega
      rw [hk, yearSpanDays_add y 1 ((yearDoyAux f (y + 1) (n - daysInYear y)).1 - (y + 1))]
      have h1 : yearSpanDays y 1 = daysInYear y := by simp [yearSpanDays]
      omega

theorem yearDoy_char (n : Nat) :
    1 ≤ (yearDoy n).1 ∧ (yearDoy n).2 < daysInYear (yearDoy n).1 ∧
    yearSpanDays 1 ((yearDoy n).1 - 1) + (yearDoy n).2 = n := by
  unfold yearDoy
  exact yearDoyAux_char (n + 1) 1 n (Nat.lt_succ_self n)

/-- Uniqueness of the year/day-of-year decomposition. -/
theorem yearDoy_decomp_unique {Y₁ D₁ Y₂ D₂ : Nat}
    (hy₁ : 1 ≤ Y₁) (hy₂ : 1 ≤ Y₂)
    (hd₁ : D₁ < daysInYear Y₁) (hd₂ : D₂ < daysInYear Y₂)
    (h : yearSpanDays 1 (Y₁ - 1) + D₁ = yearSpanDays 1 (Y₂ - 1) + D₂) :
    Y₁ = Y₂ ∧ D₁ = D₂ := by
  have key : ∀ A B : Nat, 1 ≤ A → A < B →
      yearSpanDays 1 (A - 1) + daysInYear A ≤ yearSpanDays 1 (B - 1) := by
    intro A B hA hAB
    have hsplit : B - 1 = (A - 1) + (1 + (B - A - 1)) := by omega
    rw [hsplit, yearSpanDays_add, yearSpanDays_add]
    have hA' : 1 + (A - 1) = A := by omega
    have h1 : yearSpanDays (1 + (A - 1)) 1 = daysInYear A := by
      rw [hA']; simp [yearSpanDays]
    omega
  rcases Nat.lt_trichotomy Y₁ Y₂ with hlt | heq | hgt
  · have := key Y₁ Y₂ hy₁ hlt
    omega
  · constructor
    · exact heq
    · rw [heq] at h; omega
  · have := key Y₂ Y₁ hy₂ hgt
    omega

def monthLen (leap : Bool) (m : Nat) : Nat :=
  match m with
  | 2 => if leap then 29 else 28
  | 4 => 30 | 6 => 30 | 9 => 30 | 11 => 30
  | _ => 31

def monthDayAux : Nat → Nat → Nat → Bool → Nat × Nat
  | 0, m, doy, _ => (m, doy + 1)
  | f + 1, m, doy, leap =>
    if doy < monthLen leap m then (m, doy + 1)
    else monthDayAux f (m + 1) (doy - monthLen leap m) leap

/-- Month (1-based) and day (1-based) from a zero-based day of year. -/
def monthDay (leap : Bool) (doy : Nat) : Nat × Nat := monthDayAux 11 1 doy leap

/-- Days of the year strictly before month `m` (1-based). -/
def monthPre (leap : Bool) : Nat → Nat
  | 0 => 0
  | 1 => 0
  | m + 1 => monthPre leap m + monthLen leap m

set_option maxRecDepth 4000 in
theorem monthDay_bounds_leap :
    ∀ doy, doy < 366 →
      1 ≤ (monthDay true doy).1 ∧ (monthDay true doy).1 ≤ 12 ∧
      1 ≤ (monthDay true doy).2 ∧ (monthDay true doy).2 ≤ 31 ∧
      monthPre true (monthDay true doy).1 + ((monthDay true doy).2 - 1) = doy := by
  decide

set_option maxRecDepth 4000 in
theorem monthDay_bounds_common :
    ∀ doy, doy < 365 →
      1 ≤ (monthDay false doy).1 ∧ (monthDay false doy).1 ≤ 12 ∧
      1 ≤ (monthDay false doy).2 ∧ (monthDay false doy).2 ≤ 31 ∧
      monthPre false (monthDay false doy).1 + ((monthDay false doy).2 - 1) = doy := by
  decide

/-- Civil date (year, month, day) of a day number (days since 0001-01-01). -/
def dateCivil (n : Nat) : Nat × Nat × Nat :=
  let yd := yearDoy n
  let md := monthDay (isLeapYear yd.1) yd.2
  (yd.1, md.1, md.2)

theorem monthDay_bounds (leap : Bool) (doy : Nat)
    (h : doy < if leap then 366 else 365) :
    1 ≤ (monthDay leap doy).1 ∧ (monthDay leap doy).1 ≤ 12 ∧
    1 ≤ (monthDay leap doy).2 ∧ (monthDay leap doy).2 ≤ 31 ∧
    monthPre leap (monthDay leap doy).1 + ((monthDay leap doy).2 - 1) = doy := by
  cases leap
  · exact monthDay_bounds_common doy (by simpa using h)
  · exact monthDay_bounds_leap doy (by simpa using h)

theorem dateCivil_inj (n₁ n₂ : Nat) (h : dateCivil n₁ = dateCivil n₂) : n₁ = n₂ := by
  obtain ⟨hy₁, hd₁, hs₁⟩ := yearDoy_char n₁
  obtain ⟨hy₂, hd₂, hs₂⟩ := yearDoy_char n₂
  unfold dateCivil at h
  simp only [Prod.mk.injEq] at h
  obtain ⟨hY, hm, hd⟩ := h
  rw [hY] at hd₁ hs₁ hm hd
  have hb₁ := monthDay_bounds (isLeapYear (yearDoy n₂).1) (yearDoy n₁).2
    (by unfold daysInYear at hd₁; exact hd₁)
  have hb₂ := monthDay_bounds (isLeapYear (yearDoy n₂).1) (yearDoy n₂).2
    (by unfold daysInYear at hd₂; exact hd₂)
  have e₁ := hb₁.2.2.2.2
  have e₂ := hb₂.2.2.2.2
  rw [hm, hd] at e₁
  have hdoy : (yearDoy n₁).2 = (yearDoy n₂).2 := by omega
  rw [hdoy] at hs₁
  omega

/-! ### ISO-8601 rendering (Python `date.isoformat` / `datetime.isoformat`) -/

def pad2 (n : Nat) : List Char := [digitChar10 (n / 10), digitChar10 n]

def pad4 (n : Nat) : List Char :=
  [digitChar10 (n / 1000), digitChar10 (n / 100), digitChar10 (n / 10), digitChar10 n]

/-- Characters of the ISO date `YYYY-MM-DD` of a day number. -/
def dateIsoChars (n : Nat) : List Char :=
  pad4 (dateCivil n).1 ++ '-' :: (pad2 (dateCivil n).2.1 ++ '-' :: pad2 (dateCivil n).2.2)

/-- ISO date string `YYYY-MM-DD`, as produced by `date.isoformat()`. -/
def dateIso (n : Nat) : String := String.mk (dateIsoChars n)

/-- Days between 0001-01-01 and the Unix epoch 1970-01-01. -/
def epochShift : Int := 719162

/-- Day number (days since 0001-01-01) of the civil day containing an epoch
instant in seconds. Negative years collapse to day 0; all instants considered
by the theorems lie in the representable `datetime` range. -/
def dayIndex (t : Int) : Nat := (t / 86400 + epochShift).toNat

/-- `datetime.isoformat()` of a UTC-aware instant at whole-second granularity:
`YYYY-MM-DDTHH:MM:SS+00:00`. -/
def isoUtc (t : Int) : String :=
  let sod := (t % 86400).toNat
  String.mk
    (dateIsoChars (dayIndex t) ++
      'T' :: (pad2 (sod / 3600) ++ ':' :: (pad2 (sod % 3600 / 60) ++ ':' :: pad2 (sod % 60))) ++
      "+00:00".data)

theorem isLeapYear_add_400 (y : Nat) : isLeapYear (y + 400) = isLeapYear y := by
  unfold isLeapYear
  have h4 : (y + 400) % 4 = y % 4 := by omega
  have h100 : (y + 400) % 100 = y % 100 := by omega
  have h400 : (y + 400) % 400 = y % 400 := by omega
  rw [h4, h100, h400]

theorem daysInYear_add_400 (y : Nat) : daysInYear (y + 400) = daysInYear y := by
  unfold daysInYear
  rw [isLeapYear_add_400]

theorem yearSpanDays_shift (k : Nat) : ∀ y, yearSpanDays (y + 400) k = yearSpanDays y k := by
  induction k with
  | zero => intro y; rfl
  | succ k ih =>
    intro y
    rw [yearSpanDays_succ, yearSpanDays_succ, daysInYear_add_400]
    have : y + 400 + 1 = (y + 1) + 400 := by omega
    rw [this, ih (y + 1)]

theorem yearSpanDays_shift_mul (m k : Nat) : ∀ y, yearSpanDays (y + 400 * m) k = yearSpanDays y k := by
  induction m with
  | zero => intro y; rfl
  | succ m ih =>
    intro y
    have : y + 400 * (m + 1) = (y + 400 * m) + 400 := by omega
    rw [this, yearSpanDays_shift, ih]

set_option maxRecDepth 4000 in
theorem yearSpanDays_400 : yearSpanDays 1 400 = 146097 := by decide

set_option maxRecDepth 4000 in
theorem yearSpanDays_399 : yearSpanDays 1 399 = 145731 := by decide

theorem yearSpanDays_cycles : ∀ m, yearSpanDays 1 (400 * m) = 146097 * m := by
  intro m
  induction m with
  | zero => rfl
  | succ m ih =>
    have : 400 * (m + 1) = 400 * m + 400 := by omega
    rw [this, yearSpanDays_add, ih]
    have : 1 + 400 * m = 1 + 400 * m := rfl
    rw [yearSpanDays_shift_mul m 400 1, yearSpanDays_400]
    ring

theorem yearSpanDays_full : yearSpanDays 1 9999 = 3652059 := by
  have h : (9999 : Nat) = 400 * 24 + 399 := by omega
  rw [h, yearSpanDays_add, yearSpanDays_cycles 24, yearSpanDays_shift_mul 24 399 1,
    yearSpanDays_399]

theorem yearDoy_year_le (n : Nat) (h : n ≤ 3652058) : (yearDoy n).1 ≤ 9999 := by
  by_contra hgt
  obtain ⟨hy, hd, hs⟩ := yearDoy_char n
  have hmono : yearSpanDays 1 9999 ≤ yearSpanDays 1 ((yearDoy n).1 - 1) :=
    yearSpanDays_mono 1 (by omega)
  have hval := yearSpanDays_full
  omega

theorem dateCivil_bounds (n : Nat) :
    1 ≤ (dateCivil n).1 ∧ 1 ≤ (dateCivil n).2.1 ∧ (dateCivil n).2.1 ≤ 12 ∧
    1 ≤ (dateCivil n).2.2 ∧ (dateCivil n).2.2 ≤ 31 := by
  obtain ⟨hy, hd, _⟩ := yearDoy_char n
  have hb := monthDay_bounds (isLeapYear (yearDoy n).1) (yearDoy n).2
    (by unfold daysInYear at hd; exact hd)
  unfold dateCivil
  exact ⟨hy, hb.1, hb.2.1, hb.2.2.1, hb.2.2.2.1⟩

theorem dateIso_inj (n₁ n₂ : Nat) (h₁ : n₁ ≤ 3652058) (h₂ : n₂ ≤ 3652058)
    (h : dateIso n₁ = dateIso n₂) : n₁ = n₂ := by
  have hy₁ : (dateCivil n₁).1 ≤ 9999 := yearDoy_year_le n₁ h₁
  have hy₂ : (dateCivil n₂).1 ≤ 9999 := yearDoy_year_le n₂ h₂
  obtain ⟨hb₁a, hb₁b, hb₁c, hb₁d, hb₁e⟩ := dateCivil_bounds n₁
  obtain ⟨hb₂a, hb₂b, hb₂c, hb₂d, hb₂e⟩ := dateCivil_bounds n₂
  have hl : dateIsoChars n₁ = dateIsoChars n₂ := by
    have := congrArg String.data h
    simpa [dateIso] using this
  unfold dateIsoChars pad4 pad2 at hl
  simp only [List.cons_append, List.nil_append, List.cons.injEq, and_true] at hl
  obtain ⟨e₁, e₂, e₃, e₄, -, e₅, e₆, -, e₇, e₈⟩ := hl
  apply dateCivil_inj
  have d₁ := digitChar10_inj _ _ e₁
  have d₂ := digitChar10_inj _ _ e₂
  have d₃ := digitChar10_inj _ _ e₃
  have d₄ := digitChar10_inj _ _ e₄
  have d₅ := digitChar10_inj _ _ e₅
  have d₆ := digitChar10_inj _ _ e₆
  have d₇ := digitChar10_inj _ _ e₇
  have d₈ := digitChar10_inj _ _ e₈
  have hY : (dateCivil n₁).1 = (dateCivil n₂).1 := by omega
  have hM : (dateCivil n₁).2.1 = (dateCivil n₂).2.1 := by omega
  have hD : (dateCivil n₁).2.2 = (dateCivil n₂).2.2 := by omega
  calc dateCivil n₁ = ((dateCivil n₁).1, (dateCivil n₁).2.1, (dateCivil n₁).2.2) := rfl
    _ = ((dateCivil n₂).1, (dateCivil n₂).2.1, (dateCivil n₂).2.2) := by rw [hY, hM, hD]
    _ = dateCivil n₂ := rfl

/-! ### Data model (`app/db/models.py`)

Rows carry the columns the scheduler core reads. `tzOffset` is the user's
`timezone` column resolved through `ZoneInfo` to a fixed UTC offset in
seconds. -/

structure UserRow where
  id : Nat
  telegram_id : Nat
  tzOffset : Int
  digest_enabled : Bool
deriving DecidableEq

structure BoardRow where
  id : Nat
  owner_id : Nat
deriving DecidableEq

structure TaskRow where
  id : Nat
  board_id : Nat
  column_id : Option Nat
  title : String
  description : String
  priority : Int
  status : String
  due_at : Option Int
  reminder_at : Option Int
  completed_at : Option Int
deriving DecidableEq

structure LogRow where
  user_id : Option Nat
  task_id : Option Nat
  type : String
  dedupe_key : String
  delivery_status : String
deriving DecidableEq

/-- One outbound `bot.send_message` call. `tag` is ghost data recording the id
of the task (reminder scan) or user (digest scan) whose loop iteration issued
the call; it does not influence any computation. -/
structure Msg where
  chat_id : Nat
  text : String
  tag : Nat
deriving DecidableEq

structure DBState where
  users : List UserRow
  boards : List BoardRow
  tasks : List TaskRow
  ledger : List LogRow
deriving DecidableEq

/-! ### `app/utils/datetime_utils.py` -/

/-- `next_reminder_at(due_at, now_utc)`: one hour before the due instant when
that is still in the future, otherwise the due instant itself. -/
def next_reminder_at (due_at : Option Int) (now : Int) : Option Int :=
  match due_at with
  | none => none
  | some d =>
    let preferred := d - 3600
    if preferred > now then some preferred else some d

def hourOfLocal (ls : Int) : Int := ls % 86400 / 3600

def minuteOfLocal (ls : Int) : Int := ls % 86400 % 3600 / 60

/-- `format_dt`: `"%d.%m.%Y %H:%M"` in the user's timezone, em dash when null. -/
def format_dt (value : Option Int) (tzOffset : Int) : String :=
  match value with
  | none => "—"
  | some v =>
    let ls := v + tzOffset
    let n := dayIndex ls
    let sod := (ls % 86400).toNat
    String.mk
      (pad2 (dateCivil n).2.2 ++ '.' :: (pad2 (dateCivil n).2.1 ++ '.' :: pad4 (dateCivil n).1) ++
        ' ' :: (pad2 (sod / 3600) ++ ':' :: pad2 (sod % 3600 / 60)))

/-- `local_day_bounds_utc`: UTC bounds of the current local calendar day of
the ambient clock `wallNow`. -/
def local_day_bounds_utc (tzOffset wallNow : Int) : Int × Int :=
  let day := (wallNow + tzOffset) / 86400
  (day * 86400 - tzOffset, (day + 1) * 86400 - tzOffset)

/-! ### `app/services/task_service.py` -/

structure ColumnRow where
  id : Nat
  is_done : Bool
deriving DecidableEq

/-- `create_task`: the created row. `columns` is the board's column list as
returned by `list_columns`; an empty board column list would raise in Python,
modelled as `none`. -/
def create_task (columns : List ColumnRow) (board_id tid : Nat)
    (title description : String) (priority : Int) (due_at : Option Int)
    (now : Int) : Option TaskRow :=
  let active := columns.filter (fun c => !c.is_done)
  let target := match active.head? with
    | some c => some c
    | none => columns.head?
  match target with
  | none => none
  | some c =>
    some
      { id := tid, board_id := board_id, column_id := some c.id,
        title := title.trim, description := description.trim,
        priority := max 1 (min priority 3), status := "active",
        due_at := due_at, reminder_at := next_reminder_at due_at now,
        completed_at := none }

/-- Ordering used by `ORDER BY due_at ASC` on rows whose `due_at` is non-null. -/
def dueLe (a b : TaskRow) : Prop := a.due_at.getD 0 ≤ b.due_at.getD 0

instance : DecidableRel dueLe := fun a b => by unfold dueLe; infer_instance

instance : IsTotal TaskRow dueLe := ⟨fun _ _ => Int.le_total _ _⟩

instance : IsTrans TaskRow dueLe := ⟨fun _ _ _ => Int.le_trans⟩

/-- `list_today_tasks`: active tasks of the board due within today's local day
bounds, ordered by due instant. -/
def list_today_tasks (tasks : List TaskRow) (board_id : Nat) (tzOffset wallNow : Int) :
    List TaskRow :=
  let b := local_day_bounds_utc tzOffset wallNow
  List.insertionSort dueLe
    (tasks.filter (fun t =>
      t.board_id == board_id && t.completed_at == none && t.due_at.isSome &&
      decide (b.1 ≤ t.due_at.getD 0) && decide (t.due_at.getD 0 < b.2)))

/-- `list_overdue_tasks`: active tasks of the board due before today's local
midnight, ordered by due instant. -/
def list_overdue_tasks (tasks : List TaskRow) (board_id : Nat) (tzOffset wallNow : Int) :
    List TaskRow :=
  let b := local_day_bounds_utc tzOffset wallNow
  List.insertionSort dueLe
    (tasks.filter (fun t =>
      t.board_id == board_id && t.completed_at == none && t.due_at.isSome &&
      decide (t.due_at.getD 0 < b.1)))

/-! ### `app/services/scheduler_service.py` -/

/-- `_notification_sent`: does a ledger row with this dedupe key exist. -/
def notification_sent (ledger : List LogRow) (key : String) : Bool :=
  ledger.any (fun e => e.dedupe_key == key)

/-- Canonical reminder dedupe key
`f"reminder:{task.id}:{task.reminder_at.isoformat()}"`. -/
def reminderKey (tid : Nat) (r : Int) : String :=
  "reminder:" ++ natDecimal tid ++ ":" ++ isoUtc r

/-- Reminder message body. -/
def reminderText (t : TaskRow) (u : UserRow) : String :=
  "⏰ Напоминание\n" ++ "Задача #" ++ natDecimal t.id ++ ": " ++ t.title ++ "\n" ++
    "Срок: " ++ format_dt t.due_at u.tzOffset

/-- Ordering used by `ORDER BY reminder_at ASC` on candidate rows. -/
def remLe (a b : TaskRow × UserRow) : Prop :=
  a.1.reminder_at.getD 0 ≤ b.1.reminder_at.getD 0

instance : DecidableRel remLe := fun a b => by unfold remLe; infer_instance

instance : IsTotal (TaskRow × UserRow) remLe := ⟨fun _ _ => Int.le_total _ _⟩

instance : IsTrans (TaskRow × UserRow) remLe := ⟨fun _ _ _ => Int.le_trans⟩

/-- The `JOIN boards ... JOIN users ...` of the reminder query: each task
paired with its board's owner. -/
def joinOwners (st : DBState) : List (TaskRow × UserRow) :=
  st.tasks.filterMap (fun t =>
    match st.boards.find? (fun b => b.id == t.board_id) with
    | none => none
    | some b =>
      match st.users.find? (fun u => u.id == b.owner_id) with
      | none => none
      | some u => some (t, u))

/-- The reminder scan's candidate query: tasks joined to their board's owner,
filtered to active tasks with a due reminder instant, ordered by reminder
instant ascending. -/
def reminderCandidates (st : DBState) (now : Int) : List (TaskRow × UserRow) :=
  List.insertionSort remLe
    ((joinOwners st).filter
      (fun tu =>
        decide (tu.1.completed_at = none) && tu.1.reminder_at.isSome &&
        decide (tu.1.reminder_at.getD 0 ≤ now)))

structure ScanAcc where
  ledger : List LogRow
  msgs : List Msg
deriving DecidableEq

/-- The session-local state after one iteration of the reminder-scan loop
body. `notifOk` is the notifier outcome oracle; `appendDup` tells whether
inserting a row with the given dedupe key hits the ledger's uniqueness
constraint (raised as an integrity error at `session.flush`).

When the `sent` flush violates the constraint, that flush leaves the row
unpersisted and invalidates the session's transaction, so the blanket
`except Exception` handler's own `_log_notification` flush raises a
pending-rollback error: neither the `sent` nor the `failed` row is persisted,
while the message has already gone out. Likewise, when the send itself fails
and the handler's `failed` insert collides, the handler's flush raises and
nothing is appended. In both of those cases the exception escapes the loop
body — `reminderStep` only gives the state carried at that point; whether
the body is left normally or by an escaping exception is recorded by
`reminderStepE` below. -/
def reminderStep (now : Int) (notifOk : Nat → String → Bool) (appendDup : String → Bool)
    (acc : ScanAcc) (tu : TaskRow × UserRow) : ScanAcc :=
  let t := tu.1
  let u := tu.2
  match t.reminder_at with
  | none => acc
  | some r =>
    let key := reminderKey t.id r
    if notification_sent acc.ledger key then acc
    else
      let text := reminderText t u
      if notifOk u.telegram_id text then
        if appendDup key then
          { ledger := acc.ledger, msgs := acc.msgs ++ [⟨u.telegram_id, text, t.id⟩] }
        else
          { ledger := acc.ledger ++ [⟨some u.id, some t.id, "reminder", key, "sent"⟩],
            msgs := acc.msgs ++ [⟨u.telegram_id, text, t.id⟩] }
      else
        if appendDup (key ++ ":failed:" ++ intDecimal now) then
          acc
        else
          { ledger := acc.ledger ++
              [⟨some u.id, some t.id, "reminder", key ++ ":failed:" ++ intDecimal now, "failed"⟩],
            msgs := acc.msgs }

/-- One iteration of the reminder-scan loop body with its control flow:
`Except.ok` when the body completes normally (possibly after the handler
logged a `failed` row), `Except.error` when an exception escapes the body —
the pending-rollback error raised by the handler's flush after the `sent`
flush violated the uniqueness constraint, or the integrity error raised by
the handler's own `failed` insert. The carried value is the session-local
state at the point control leaves the body. -/
def reminderStepE (now : Int) (notifOk : Nat → String → Bool) (appendDup : String → Bool)
    (acc : ScanAcc) (tu : TaskRow × UserRow) : Except ScanAcc ScanAcc :=
  let t := tu.1
  let u := tu.2
  match t.reminder_at with
  | none => Except.ok acc
  | some r =>
    let key := reminderKey t.id r
    if notification_sent acc.ledger key then Except.ok acc
    else
      let text := reminderText t u
      if notifOk u.telegram_id text then
        if appendDup key then
          Except.error { ledger := acc.ledger, msgs := acc.msgs ++ [⟨u.telegram_id, text, t.id⟩] }
        else
          Except.ok
            { ledger := acc.ledger ++ [⟨some u.id, some t.id, "reminder", key, "sent"⟩],
              msgs := acc.msgs ++ [⟨u.telegram_id, text, t.id⟩] }
      else
        if appendDup (key ++ ":failed:" ++ intDecimal now) then
          Except.error acc
        else
          Except.ok
            { ledger := acc.ledger ++
                [⟨some u.id, some t.id, "reminder", key ++ ":failed:" ++ intDecimal now,
                  "failed"⟩],
              msgs := acc.msgs }

/-- The scan loop over its candidates: fold the per-candidate body, stopping
as soon as one iteration lets an exception escape. -/
def scanFoldE {α : Type} (f : ScanAcc → α → Except ScanAcc ScanAcc) :
    ScanAcc → List α → Except ScanAcc ScanAcc
  | acc, [] => Except.ok acc
  | acc, x :: xs =>
    match f acc x with
    | Except.ok acc' => scanFoldE f acc' xs
    | Except.error acc' => Except.error acc'

/-- `process_reminders(session_factory, bot, now_utc)` under the assumption
that every loop iteration completes normally (no uniqueness violation is
hit): scan all due reminder candidates, returning the session-local ledger
and the outbound messages. The general loop, in which an iteration may abort
the scan, is `process_remindersE` below; the two agree whenever `appendDup`
reports no violation. -/
def process_reminders (now : Int) (notifOk : Nat → String → Bool)
    (appendDup : String → Bool) (st : DBState) : ScanAcc :=
  (reminderCandidates st now).foldl (reminderStep now notifOk appendDup) ⟨st.ledger, []⟩

/-- The reminder-scan loop with its control flow: `Except.ok` when all
candidate iterations complete normally, `Except.error` when one of them lets
an exception escape, aborting the loop there. -/
def process_remindersE (now : Int) (notifOk : Nat → String → Bool)
    (appendDup : String → Bool) (st : DBState) : Except ScanAcc ScanAcc :=
  scanFoldE (reminderStepE now notifOk appendDup) ⟨st.ledger, []⟩ (reminderCandidates st now)

/-- The reminder scan as a state transformer under the no-violation
assumption (commit included). -/
def run_reminders (now : Int) (notifOk : Nat → String → Bool)
    (appendDup : String → Bool) (st : DBState) : DBState × List Msg :=
  let acc := process_reminders now notifOk appendDup st
  ({ st with ledger := acc.ledger }, acc.msgs)

/-- The full reminder tick as a state transformer, session handling
included: when the loop completes normally, `session.commit()` makes the
session-local ledger the new store; when an iteration lets an exception
escape, the loop aborts, the commit is never reached and the `async with`
block rolls the transaction back — the store is unchanged and only the
messages already handed to the bot remain. The Boolean records whether the
tick completed normally. -/
def run_remindersE (now : Int) (notifOk : Nat → String → Bool)
    (appendDup : String → Bool) (st : DBState) : DBState × List Msg × Bool :=
  match process_remindersE now notifOk appendDup st with
  | Except.ok acc => ({ st with ledger := acc.ledger }, acc.msgs, true)
  | Except.error acc => (st, acc.msgs, false)

/-- Canonical digest dedupe key
`f"digest:{user.id}:{user_now.date().isoformat()}"`; `localDay` is the day
number of the user's local calendar date. -/
def digestKey (uid localDay : Nat) : String :=
  "digest:" ++ natDecimal uid ++ ":" ++ dateIso localDay

/-- Digest message body, built from today's and overdue tasks of the user's
board (both queried against the ambient clock `wallNow`). -/
def digestText (tasks : List TaskRow) (bid : Nat) (tzOffset wallNow : Int) : String :=
  let today_tasks := list_today_tasks tasks bid tzOffset wallNow
  let overdue_tasks := list_overdue_tasks tasks bid tzOffset wallNow
  let lines : List String :=
    ["🗓 Ежедневный дайджест", ""] ++
    [if overdue_tasks.length ≠ 0 then "Просрочено: " ++ natDecimal overdue_tasks.length
     else "Просроченных нет"] ++
    [if today_tasks.length ≠ 0 then "На сегодня: " ++ natDecimal today_tasks.length
     else "На сегодня задач нет"] ++
    [""] ++
    (overdue_tasks.take 5).map (fun t => "• [OVERDUE] #" ++ natDecimal t.id ++ " " ++ t.title) ++
    (today_tasks.take 5).map (fun t => "• [TODAY] #" ++ natDecimal t.id ++ " " ++ t.title)
  String.intercalate "\n" lines

/-- The session-local state after one iteration of the digest-scan loop
body. As with `reminderStep`, a uniqueness violation on the `sent` flush
leaves that row unpersisted and makes the handler's own flush raise a
pending-rollback error, and a collision on the handler's `failed` insert
makes its flush raise: in those cases nothing is appended and the exception
escapes the body — the control flow is recorded by `digestStepE` below. -/
def digestStep (now wallNow : Int) (digest_hour digest_minute : Int)
    (st : DBState) (notifOk : Nat → String → Bool) (appendDup : String → Bool)
    (acc : ScanAcc) (u : UserRow) : ScanAcc :=
  let ls := now + u.tzOffset
  if hourOfLocal ls ≠ digest_hour ∨ minuteOfLocal ls ≠ digest_minute then acc
  else
    let key := digestKey u.id (dayIndex ls)
    if notification_sent acc.ledger key then acc
    else
      match st.boards.find? (fun b => b.owner_id == u.id) with
      | none => acc
      | some board =>
        let text := digestText st.tasks board.id u.tzOffset wallNow
        if notifOk u.telegram_id text then
          if appendDup key then
            { ledger := acc.ledger, msgs := acc.msgs ++ [⟨u.telegram_id, text, u.id⟩] }
          else
            { ledger := acc.ledger ++ [⟨some u.id, none, "digest", key, "sent"⟩],
              msgs := acc.msgs ++ [⟨u.telegram_id, text, u.id⟩] }
        else
          if appendDup (key ++ ":failed:" ++ intDecimal now) then
            acc
          else
            { ledger := acc.ledger ++
                [⟨some u.id, none, "digest", key ++ ":failed:" ++ intDecimal now, "failed"⟩],
              msgs := acc.msgs }

/-- One iteration of the digest-scan loop body with its control flow, in the
same sense as `reminderStepE`. -/
def digestStepE (now wallNow : Int) (digest_hour digest_minute : Int)
    (st : DBState) (notifOk : Nat → String → Bool) (appendDup : String → Bool)
    (acc : ScanAcc) (u : UserRow) : Except ScanAcc ScanAcc :=
  let ls := now + u.tzOffset
  if hourOfLocal ls ≠ digest_hour ∨ minuteOfLocal ls ≠ digest_minute then Except.ok acc
  else
    let key := digestKey u.id (dayIndex ls)
    if notification_sent acc.ledger key then Except.ok acc
    else
      match st.boards.find? (fun b => b.owner_id == u.id) with
      | none => Except.ok acc
      | some board =>
        let text := digestText st.tasks board.id u.tzOffset wallNow
        if notifOk u.telegram_id text then
          if appendDup key then
            Except.error { ledger := acc.ledger, msgs := acc.msgs ++ [⟨u.telegram_id, text, u.id⟩] }
          else
            Except.ok
              { ledger := acc.ledger ++ [⟨some u.id, none, "digest", key, "sent"⟩],
                msgs := acc.msgs ++ [⟨u.telegram_id, text, u.id⟩] }
        else
          if appendDup (key ++ ":failed:" ++ intDecimal now) then
            Except.error acc
          else
            Except.ok
              { ledger := acc.ledger ++
                  [⟨some u.id, none, "digest", key ++ ":failed:" ++ intDecimal now, "failed"⟩],
                msgs := acc.msgs }

/-- `process_digest(...)` under the assumption that every loop iteration
completes normally: iterate the digest-enabled users. The general loop is
`process_digestE`; the two agree whenever `appendDup` reports no
violation. -/
def process_digest (now wallNow : Int) (digest_hour digest_minute : Int)
    (notifOk : Nat → String → Bool) (appendDup : String → Bool) (st : DBState) : ScanAcc :=
  (st.users.filter (fun u => u.digest_enabled)).foldl
    (digestStep now wallNow digest_hour digest_minute st notifOk appendDup) ⟨st.ledger, []⟩

/-- The digest-scan loop with its control flow, in the same sense as
`process_remindersE`. -/
def process_digestE (now wallNow : Int) (digest_hour digest_minute : Int)
    (notifOk : Nat → String → Bool) (appendDup : String → Bool) (st : DBState) :
    Except ScanAcc ScanAcc :=
  scanFoldE (digestStepE now wallNow digest_hour digest_minute st notifOk appendDup)
    ⟨st.ledger, []⟩ (st.users.filter (fun u => u.digest_enabled))

/-- The digest scan as a state transformer under the no-violation assumption
(commit included). -/
def run_digest (now wallNow : Int) (digest_hour digest_minute : Int)
    (notifOk : Nat → String → Bool) (appendDup : String → Bool) (st : DBState) :
    DBState × List Msg :=
  let acc := process_digest now wallNow digest_hour digest_minute notifOk appendDup st
  ({ st with ledger := acc.ledger }, acc.msgs)

/-- The full digest tick with session handling, in the same sense as
`run_remindersE`: commit on normal completion, full rollback when an
iteration lets an exception escape. -/
def run_digestE (now wallNow : Int) (digest_hour digest_minute : Int)
    (notifOk : Nat → String → Bool) (appendDup : String → Bool) (st : DBState) :
    DBState × List Msg × Bool :=
  match process_digestE now wallNow digest_hour digest_minute notifOk appendDup st with
  | Except.ok acc => ({ st with ledger := acc.ledger }, acc.msgs, true)
  | Except.error acc => (st, acc.msgs, false)

/-! ### Dedupe-key disjointness -/

/-- Two keys of shape `prefix ++ decimal-id ++ ":" ++ rest` agree only when
the ids and the rests agree. -/
theorem tagged_key_inj (pre : List Char) (id₁ id₂ : Nat) (x y : List Char)
    (h : pre ++ ((natDecimal id₁).data ++ ':' :: x) = pre ++ ((natDecimal id₂).data ++ ':' :: y)) :
    id₁ = id₂ ∧ x = y := by
  have h' := List.append_cancel_left h
  have hsplit := colon_split (natDecimal id₁).data (natDecimal id₂).data x y
    (natDecimal_no_colon id₁) (natDecimal_no_colon id₂) h'
  refine ⟨?_, hsplit.2⟩
  apply natDecimal_inj
  exact String.ext hsplit.1

theorem reminderKey_data (tid : Nat) (r : Int) :
    (reminderKey tid r).data =
      "reminder:".data ++ ((natDecimal tid).data ++ ':' :: (isoUtc r).data) := by
  unfold reminderKey
  simp [String.data_append]

theorem digestKey_data (uid d : Nat) :
    (digestKey uid d).data =
      "digest:".data ++ ((natDecimal uid).data ++ ':' :: (dateIso d).data) := by
  unfold digestKey
  simp [String.data_append]

/-- Distinct task ids give distinct reminder keys, even after appending any
suffix (such as `":failed:" ++ timestamp`) to one of them. -/
theorem reminderKey_ne_append (id₁ id₂ : Nat) (r₁ r₂ : Int) (s : String)
    (h : id₁ ≠ id₂) : reminderKey id₁ r₁ ≠ reminderKey id₂ r₂ ++ s := by
  intro he
  have hd := congrArg String.data he
  rw [String.data_append, reminderKey_data, reminderKey_data] at hd
  have hR : ("reminder:".data : List Char) = ['r','e','m','i','n','d','e','r',':'] := rfl
  rw [hR] at hd
  simp only [List.cons_append, List.nil_append, List.append_assoc, List.cons.injEq,
    true_and] at hd
  have := (colon_split _ _ _ _ (natDecimal_no_colon id₁) (natDecimal_no_colon id₂) hd).1
  exact h (natDecimal_inj _ _ (String.ext this))

theorem reminderKey_inj (id₁ id₂ : Nat) (r₁ r₂ : Int)
    (h : reminderKey id₁ r₁ = reminderKey id₂ r₂) : id₁ = id₂ := by
  have hd := congrArg String.data h
  rw [reminderKey_data, reminderKey_data] at hd
  exact (tagged_key_inj _ _ _ _ _ hd).1

/-- Distinct user ids give distinct digest keys, even after appending any
suffix to one of them. -/
theorem digestKey_ne_append (id₁ id₂ : Nat) (d₁ d₂ : Nat) (s : String)
    (h : id₁ ≠ id₂) : digestKey id₁ d₁ ≠ digestKey id₂ d₂ ++ s := by
  intro he
  have hd := congrArg String.data he
  rw [String.data_append, digestKey_data, digestKey_data] at hd
  have hR : ("digest:".data : List Char) = ['d','i','g','e','s','t',':'] := rfl
  rw [hR] at hd
  simp only [List.cons_append, List.nil_append, List.append_assoc, List.cons.injEq,
    true_and] at hd
  have := (colon_split _ _ _ _ (natDecimal_no_colon id₁) (natDecimal_no_colon id₂) hd).1
  exact h (natDecimal_inj _ _ (String.ext this))

/-- Digest keys of the same user on different (representable) local days are
distinct. -/
theorem digestKey_ne_of_day_ne (uid : Nat) (d₁ d₂ : Nat)
    (hb₁ : d₁ ≤ 3652058) (hb₂ : d₂ ≤ 3652058) (h : d₁ ≠ d₂) :
    digestKey uid d₁ ≠ digestKey uid d₂ := by
  intro he
  have hd := congrArg String.data he
  rw [digestKey_data, digestKey_data] at hd
  have := (tagged_key_inj _ _ _ _ _ hd).2
  exact h (dateIso_inj d₁ d₂ hb₁ hb₂ (String.ext this))

/-! ### Scan invariants -/

/-- Ledger rows carrying a given dedupe key. -/
def rowsForKey (l : List LogRow) (k : String) : List LogRow :=
  l.filter (fun e => e.dedupe_key == k)

/-- Messages of a scan tagged with a given task/user id. -/
def msgsForTag (ms : List Msg) (tag : Nat) : List Msg :=
  ms.filter (fun m => m.tag == tag)

theorem rowsForKey_append (l₁ l₂ : List LogRow) (k : String) :
    rowsForKey (l₁ ++ l₂) k = rowsForKey l₁ k ++ rowsForKey l₂ k := by
  unfold rowsForKey
  exact List.filter_append _ _

theorem msgsForTag_append (m₁ m₂ : List Msg) (tag : Nat) :
    msgsForTag (m₁ ++ m₂) tag = msgsForTag m₁ tag ++ msgsForTag m₂ tag := by
  unfold msgsForTag
  exact List.filter_append _ _

theorem notification_sent_append (l₁ l₂ : List LogRow) (k : String) :
    notification_sent (l₁ ++ l₂) k = (notification_sent l₁ k || notification_sent l₂ k) := by
  unfold notification_sent
  exact List.any_append

theorem notification_sent_eq_false_iff (l : List LogRow) (k : String) :
    notification_sent l k = false ↔ ∀ e ∈ l, e.dedupe_key ≠ k := by
  unfold notification_sent
  simp [List.any_eq_true]

theorem reminderStep_extends (now : Int) (nOk : Nat → String → Bool) (aDup : String → Bool)
    (acc : ScanAcc) (tu : TaskRow × UserRow) :
    ∃ δ δm, (reminderStep now nOk aDup acc tu).ledger = acc.ledger ++ δ ∧
      (reminderStep now nOk aDup acc tu).msgs = acc.msgs ++ δm := by
  unfold reminderStep
  dsimp only
  split
  · exact ⟨[], [], by simp, by simp⟩
  · split
    · exact ⟨[], [], by simp, by simp⟩
    · split
      · split
        · exact ⟨[], _, by simp, rfl⟩
        · exact ⟨_, _, rfl, rfl⟩
      · split
        · exact ⟨[], [], by simp, by simp⟩
        · exact ⟨_, [], rfl, by simp⟩

theorem digestStep_extends (now wallNow dh dm : Int) (st : DBState)
    (nOk : Nat → String → Bool) (aDup : String → Bool) (acc : ScanAcc) (u : UserRow) :
    ∃ δ δm, (digestStep now wallNow dh dm st nOk aDup acc u).ledger = acc.ledger ++ δ ∧
      (digestStep now wallNow dh dm st nOk aDup acc u).msgs = acc.msgs ++ δm := by
  unfold digestStep
  dsimp only
  split
  · exact ⟨[], [], by simp, by simp⟩
  · split
    · exact ⟨[], [], by simp, by simp⟩
    · split
      · exact ⟨[], [], by simp, by simp⟩
      · split
        · split
          · exact ⟨[], _, by simp, rfl⟩
          · exact ⟨_, _, rfl, rfl⟩
        · split
          · exact ⟨[], [], by simp, by simp⟩
          · exact ⟨_, [], rfl, by simp⟩

/-- Any fold of a step that only appends to the ledger and message list only
appends to both. -/
theorem scan_foldl_extends {α : Type} (step : ScanAcc → α → ScanAcc)
    (hstep : ∀ acc x, ∃ δ δm, (step acc x).ledger = acc.ledger ++ δ ∧
      (step acc x).msgs = acc.msgs ++ δm) :
    ∀ (l : List α) (acc : ScanAcc), ∃ Δ Δm,
      (l.foldl step acc).ledger = acc.ledger ++ Δ ∧ (l.foldl step acc).msgs = acc.msgs ++ Δm := by
  intro l
  induction l with
  | nil => intro acc; exact ⟨[], [], by simp, by simp⟩
  | cons x xs ih =>
    intro acc
    obtain ⟨δ, δm, h₁, h₂⟩ := hstep acc x
    obtain ⟨Δ, Δm, h₃, h₄⟩ := ih (step acc x)
    exact ⟨δ ++ Δ, δm ++ Δm, by simp [List.foldl_cons, h₃, h₁],
      by simp [List.foldl_cons, h₄, h₂]⟩

/-- Exhaustive description of the state after one reminder-loop iteration. -/
theorem reminderStep_cases (now : Int) (nOk : Nat → String → Bool) (aDup : String → Bool)
    (acc : ScanAcc) (tu : TaskRow × UserRow) :
    (reminderStep now nOk aDup acc tu = acc ∧
      (tu.1.reminder_at = none ∨ ∃ r, tu.1.reminder_at = some r ∧
        notification_sent acc.ledger (reminderKey tu.1.id r) = true)) ∨
    (∃ r, tu.1.reminder_at = some r ∧
      notification_sent acc.ledger (reminderKey tu.1.id r) = false ∧
      ((nOk tu.2.telegram_id (reminderText tu.1 tu.2) = true ∧
        aDup (reminderKey tu.1.id r) = false ∧
        reminderStep now nOk aDup acc tu =
          { ledger := acc.ledger ++ [⟨some tu.2.id, some tu.1.id, "reminder",
              reminderKey tu.1.id r, "sent"⟩],
            msgs := acc.msgs ++ [⟨tu.2.telegram_id, reminderText tu.1 tu.2, tu.1.id⟩] }) ∨
       (nOk tu.2.telegram_id (reminderText tu.1 tu.2) = true ∧
        aDup (reminderKey tu.1.id r) = true ∧
        reminderStep now nOk aDup acc tu =
          { ledger := acc.ledger,
            msgs := acc.msgs ++ [⟨tu.2.telegram_id, reminderText tu.1 tu.2, tu.1.id⟩] }) ∨
       (nOk tu.2.telegram_id (reminderText tu.1 tu.2) = false ∧
        aDup (reminderKey tu.1.id r ++ ":failed:" ++ intDecimal now) = false ∧
        reminderStep now nOk aDup acc tu =
          { ledger := acc.ledger ++ [⟨some tu.2.id, some tu.1.id, "reminder",
              reminderKey tu.1.id r ++ ":failed:" ++ intDecimal now, "failed"⟩],
            msgs := acc.msgs }) ∨
       (nOk tu.2.telegram_id (reminderText tu.1 tu.2) = false ∧
        aDup (reminderKey tu.1.id r ++ ":failed:" ++ intDecimal now) = true ∧
        reminderStep now nOk aDup acc tu = acc))) := by
  unfold reminderStep
  dsimp only
  cases hr : tu.1.reminder_at with
  | none => exact Or.inl ⟨rfl, Or.inl rfl⟩
  | some r =>
    cases hs : notification_sent acc.ledger (reminderKey tu.1.id r) with
    | true => exact Or.inl ⟨by simp [hs], Or.inr ⟨r, rfl, hs⟩⟩
    | false =>
      refine Or.inr ⟨r, rfl, hs, ?_⟩
      cases ho : nOk tu.2.telegram_id (reminderText tu.1 tu.2) with
      | true =>
        cases hd : aDup (reminderKey tu.1.id r) with
        | true => exact Or.inr (Or.inl ⟨rfl, rfl, by simp [hs, ho, hd]⟩)
        | false => exact Or.inl ⟨rfl, rfl, by simp [hs, ho, hd]⟩
      | false =>
        cases hd : aDup (reminderKey tu.1.id r ++ ":failed:" ++ intDecimal now) with
        | true => exact Or.inr (Or.inr (Or.inr ⟨rfl, rfl, by simp [hs, ho, hd]⟩))
        | false => exact Or.inr (Or.inr (Or.inl ⟨rfl, rfl, by simp [hs, ho, hd]⟩))

theorem reminderStep_noop (now : Int) (nOk : Nat → String → Bool) (aDup : String → Bool)
    (acc : ScanAcc) (tu : TaskRow × UserRow)
    (h : ∀ r, tu.1.reminder_at = some r →
      notification_sent acc.ledger (reminderKey tu.1.id r) = true) :
    reminderStep now nOk aDup acc tu = acc := by
  unfold reminderStep
  dsimp only
  cases hr : tu.1.reminder_at with
  | none => rfl
  | some r => simp [h r hr]

/-- When every candidate's canonical key is already in the ledger, the whole
reminder fold is a no-op. -/
theorem reminder_fold_noop (now : Int) (nOk : Nat → String → Bool) (aDup : String → Bool) :
    ∀ (l : List (TaskRow × UserRow)) (acc : ScanAcc),
      (∀ tu ∈ l, ∀ r, tu.1.reminder_at = some r →
        notification_sent acc.ledger (reminderKey tu.1.id r) = true) →
      l.foldl (reminderStep now nOk aDup) acc = acc := by
  intro l
  induction l with
  | nil => intro acc _; rfl
  | cons x xs ih =>
    intro acc h
    have hx : reminderStep now nOk aDup acc x = acc :=
      reminderStep_noop now nOk aDup acc x (h x (List.mem_cons_self x xs))
    rw [List.foldl_cons, hx]
    exact ih acc (fun tu htu => h tu (List.mem_cons_of_mem x htu))

/-- Keys present in the accumulator stay present through the fold. -/
theorem reminder_fold_sent_mono (now : Int) (nOk : Nat → String → Bool) (aDup : String → Bool)
    (l : List (TaskRow × UserRow)) (acc : ScanAcc) (k : String)
    (h : notification_sent acc.ledger k = true) :
    notification_sent (l.foldl (reminderStep now nOk aDup) acc).ledger k = true := by
  obtain ⟨Δ, Δm, hΔ, _⟩ := scan_foldl_extends _ (reminderStep_extends now nOk aDup) l acc
  rw [hΔ, notification_sent_append, h]
  rfl

/-- After an all-success reminder fold with no storage races, every
candidate's canonical key is in the resulting ledger. -/
theorem reminder_fold_keys_present (now : Int) (nOk : Nat → String → Bool)
    (hok : ∀ c s, nOk c s = true) :
    ∀ (l : List (TaskRow × UserRow)) (acc : ScanAcc),
      ∀ tu ∈ l, ∀ r, tu.1.reminder_at = some r →
        notification_sent
          (l.foldl (reminderStep now nOk (fun _ => false)) acc).ledger
          (reminderKey tu.1.id r) = true := by
  intro l
  induction l with
  | nil => intro acc tu htu; simp at htu
  | cons x xs ih =>
    intro acc tu htu r hr
    rcases List.mem_cons.mp htu with rfl | hmem
    · have hkey : notification_sent (reminderStep now nOk (fun _ => false) acc tu).ledger
          (reminderKey tu.1.id r) = true := by
        rcases reminderStep_cases now nOk (fun _ => false) acc tu with ⟨heq, hc⟩ | ⟨r', hr', hs, hc⟩
        · rw [heq]
          rcases hc with hnone | ⟨r'', hr'', hs⟩
          · rw [hr] at hnone; cases hnone
          · rw [hr] at hr''; cases Option.some.inj hr''; exact hs
        · rw [hr] at hr'
          cases Option.some.inj hr'
          rcases hc with ⟨_, _, heq⟩ | ⟨_, hd, _⟩ | ⟨hno, _, _⟩ | ⟨hno, _, _⟩
          · rw [heq]
            simp [notification_sent_append]
            right
            unfold notification_sent
            simp
          · cases hd
          · rw [hok _ _] at hno; cases hno
          · rw [hok _ _] at hno; cases hno
      rw [List.foldl_cons]
      exact reminder_fold_sent_mono now nOk (fun _ => false) xs _ _ hkey
    · rw [List.foldl_cons]
      exact ih (reminderStep now nOk (fun _ => false) acc x) tu hmem r hr

theorem rowsForKey_singleton_ne (e : LogRow) (k : String) (h : e.dedupe_key ≠ k) :
    rowsForKey [e] k = [] := by
  simp [rowsForKey, h]

theorem msgsForTag_singleton_ne (m : Msg) (tag : Nat) (h : m.tag ≠ tag) :
    msgsForTag [m] tag = [] := by
  simp [msgsForTag, h]

/-- Candidates for other task ids never touch the rows of a given task's
canonical key nor its messages. -/
theorem reminderStep_others (now : Int) (nOk : Nat → String → Bool) (aDup : String → Bool)
    (acc : ScanAcc) (tu : TaskRow × UserRow) (tid : Nat) (r₀ : Int) (hne : tu.1.id ≠ tid) :
    rowsForKey (reminderStep now nOk aDup acc tu).ledger (reminderKey tid r₀) =
      rowsForKey acc.ledger (reminderKey tid r₀) ∧
    msgsForTag (reminderStep now nOk aDup acc tu).msgs tid = msgsForTag acc.msgs tid := by
  rcases reminderStep_cases now nOk aDup acc tu with ⟨heq, -⟩ | ⟨r, hr, hs, hc⟩
  · rw [heq]; exact ⟨rfl, rfl⟩
  · have hkey : reminderKey tu.1.id r ≠ reminderKey tid r₀ :=
      fun he => hne (reminderKey_inj _ _ _ _ he)
    have hkey2 : reminderKey tu.1.id r ++ ":failed:" ++ intDecimal now ≠ reminderKey tid r₀ := by
      rw [String.append_assoc]
      exact fun he => reminderKey_ne_append tid tu.1.id r₀ r _ (fun h => hne h.symm) he.symm
    rcases hc with ⟨_, _, heq⟩ | ⟨_, _, heq⟩ | ⟨_, _, heq⟩ | ⟨_, _, heq⟩ <;> rw [heq] <;>
      constructor
    · rw [rowsForKey_append, rowsForKey_singleton_ne _ _ hkey, List.append_nil]
    · rw [msgsForTag_append, msgsForTag_singleton_ne _ _ hne, List.append_nil]
    · rfl
    · rw [msgsForTag_append, msgsForTag_singleton_ne _ _ hne, List.append_nil]
    · rw [rowsForKey_append, rowsForKey_singleton_ne _ _ hkey2, List.append_nil]
    · rfl
    · rfl
    · rfl

theorem reminder_fold_others (now : Int) (nOk : Nat → String → Bool) (aDup : String → Bool)
    (tid : Nat) (r₀ : Int) :
    ∀ (l : List (TaskRow × UserRow)) (acc : ScanAcc), (∀ tu ∈ l, tu.1.id ≠ tid) →
      rowsForKey (l.foldl (reminderStep now nOk aDup) acc).ledger (reminderKey tid r₀) =
        rowsForKey acc.ledger (reminderKey tid r₀) ∧
      msgsForTag (l.foldl (reminderStep now nOk aDup) acc).msgs tid =
        msgsForTag acc.msgs tid := by
  intro l
  induction l with
  | nil => intro acc _; exact ⟨rfl, rfl⟩
  | cons x xs ih =>
    intro acc h
    have hx := reminderStep_others now nOk aDup acc x tid r₀ (h x (List.mem_cons_self x xs))
    have hxs := ih (reminderStep now nOk aDup acc x) (fun tu htu => h tu (List.mem_cons_of_mem x htu))
    rw [List.foldl_cons]
    exact ⟨hxs.1.trans hx.1, hxs.2.trans hx.2⟩

/-- The distinguished candidate, reached with its key absent and a working
notifier and no storage race, appends exactly its `sent` row and its message. -/
theorem reminderStep_hit (now : Int) (nOk : Nat → String → Bool) (acc : ScanAcc)
    (t : TaskRow) (u : UserRow) (r : Int) (ht : t.reminder_at = some r)
    (hs : notification_sent acc.ledger (reminderKey t.id r) = false)
    (hok : nOk u.telegram_id (reminderText t u) = true) :
    reminderStep now nOk (fun _ => false) acc (t, u) =
      { ledger := acc.ledger ++ [⟨some u.id, some t.id, "reminder", reminderKey t.id r, "sent"⟩],
        msgs := acc.msgs ++ [⟨u.telegram_id, reminderText t u, t.id⟩] } := by
  unfold reminderStep
  dsimp only
  rw [ht]
  simp [hs, hok]

/-- A candidate whose send fails, with no collision on the timestamped key,
appends exactly a `failed` row under that key and no message. -/
theorem reminderStep_sendfail (now : Int) (nOk : Nat → String → Bool) (aDup : String → Bool)
    (acc : ScanAcc) (t : TaskRow) (u : UserRow) (r : Int) (ht : t.reminder_at = some r)
    (hs : notification_sent acc.ledger (reminderKey t.id r) = false)
    (hno : nOk u.telegram_id (reminderText t u) = false)
    (hd2 : aDup (reminderKey t.id r ++ ":failed:" ++ intDecimal now) = false) :
    reminderStep now nOk aDup acc (t, u) =
      { ledger := acc.ledger ++ [⟨some u.id, some t.id, "reminder",
          reminderKey t.id r ++ ":failed:" ++ intDecimal now, "failed"⟩],
        msgs := acc.msgs } := by
  unfold reminderStep
  dsimp only
  rw [ht]
  simp [hs, hno, hd2]

/-- A candidate whose send succeeds but whose `sent` insert hits the
uniqueness constraint leaves the ledger untouched (neither flush persists a
row) with the message already gone out; this is the state carried by the
escaping exception. -/
theorem reminderStep_dupfail (now : Int) (nOk : Nat → String → Bool) (aDup : String → Bool)
    (acc : ScanAcc) (t : TaskRow) (u : UserRow) (r : Int) (ht : t.reminder_at = some r)
    (hs : notification_sent acc.ledger (reminderKey t.id r) = false)
    (hok : nOk u.telegram_id (reminderText t u) = true)
    (hd : aDup (reminderKey t.id r) = true) :
    reminderStep now nOk aDup acc (t, u) =
      { ledger := acc.ledger,
        msgs := acc.msgs ++ [⟨u.telegram_id, reminderText t u, t.id⟩] } := by
  unfold reminderStep
  dsimp only
  rw [ht]
  simp [hs, hok, hd]

/-- The same iteration at the `Except` level: the body is left by the
escaping pending-rollback error. -/
theorem reminderStepE_dup (now : Int) (nOk : Nat → String → Bool) (aDup : String → Bool)
    (acc : ScanAcc) (t : TaskRow) (u : UserRow) (r : Int) (ht : t.reminder_at = some r)
    (hs : notification_sent acc.ledger (reminderKey t.id r) = false)
    (hok : nOk u.telegram_id (reminderText t u) = true)
    (hd : aDup (reminderKey t.id r) = true) :
    reminderStepE now nOk aDup acc (t, u) =
      Except.error
        { ledger := acc.ledger,
          msgs := acc.msgs ++ [⟨u.telegram_id, reminderText t u, t.id⟩] } := by
  unfold reminderStepE
  dsimp only
  rw [ht]
  simp [hs, hok, hd]

/-- An iteration whose keys are reported free of violations completes
normally, carrying exactly the state `reminderStep` computes. -/
theorem reminderStepE_ok_agree (now : Int) (nOk : Nat → String → Bool) (aDup : String → Bool)
    (acc : ScanAcc) (tu : TaskRow × UserRow)
    (h : ∀ r, tu.1.reminder_at = some r →
      aDup (reminderKey tu.1.id r) = false ∧
      aDup (reminderKey tu.1.id r ++ ":failed:" ++ intDecimal now) = false) :
    reminderStepE now nOk aDup acc tu = Except.ok (reminderStep now nOk aDup acc tu) := by
  unfold reminderStepE reminderStep
  dsimp only
  cases hr : tu.1.reminder_at with
  | none => rfl
  | some r =>
    obtain ⟨h₁, h₂⟩ := h r hr
    cases hs : notification_sent acc.ledger (reminderKey tu.1.id r) with
    | true => simp [hs]
    | false =>
      cases ho : nOk tu.2.telegram_id (reminderText tu.1 tu.2) with
      | true => simp [hs, ho, h₁]
      | false => simp [hs, ho, h₂]

theorem scanFoldE_nil {α : Type} (f : ScanAcc → α → Except ScanAcc ScanAcc) (acc : ScanAcc) :
    scanFoldE f acc [] = Except.ok acc := rfl

theorem scanFoldE_cons {α : Type} (f : ScanAcc → α → Except ScanAcc ScanAcc)
    (x : α) (xs : List α) (acc : ScanAcc) :
    scanFoldE f acc (x :: xs) =
      match f acc x with
      | Except.ok acc' => scanFoldE f acc' xs
      | Except.error acc' => Except.error acc' := rfl

/-- Splitting the exception-aware fold at a normally-completed prefix. -/
theorem scanFoldE_append {α : Type} (f : ScanAcc → α → Except ScanAcc ScanAcc)
    (l₁ l₂ : List α) :
    ∀ acc acc₁ : ScanAcc, scanFoldE f acc l₁ = Except.ok acc₁ →
      scanFoldE f acc (l₁ ++ l₂) = scanFoldE f acc₁ l₂ := by
  induction l₁ with
  | nil =>
    intro acc acc₁ h
    rw [scanFoldE_nil] at h
    cases h
    rfl
  | cons x xs ih =>
    intro acc acc₁ h
    rw [scanFoldE_cons] at h
    rw [List.cons_append, scanFoldE_cons]
    cases hfx : f acc x with
    | ok acc' =>
      rw [hfx] at h
      dsimp only at h
      dsimp only
      exact ih acc' acc₁ h
    | error acc' =>
      rw [hfx] at h
      dsimp only at h
      cases h

/-- The exception-aware fold halts at an iteration that raises. -/
theorem scanFoldE_error_cons {α : Type} (f : ScanAcc → α → Except ScanAcc ScanAcc)
    (x : α) (xs : List α) (acc e : ScanAcc) (h : f acc x = Except.error e) :
    scanFoldE f acc (x :: xs) = Except.error e := by
  rw [scanFoldE_cons, h]

/-- When every iteration of a list completes normally, the exception-aware
fold computes exactly the plain fold of the per-iteration state. -/
theorem scanFoldE_ok_of_steps {α : Type} (f : ScanAcc → α → Except ScanAcc ScanAcc)
    (g : ScanAcc → α → ScanAcc) :
    ∀ (l : List α) (acc : ScanAcc), (∀ (acc' : ScanAcc), ∀ x ∈ l, f acc' x = Except.ok (g acc' x)) →
      scanFoldE f acc l = Except.ok (l.foldl g acc) := by
  intro l
  induction l with
  | nil => intro acc _; rfl
  | cons x xs ih =>
    intro acc h
    rw [scanFoldE_cons, h acc x (List.mem_cons_self x xs)]
    dsimp only
    rw [List.foldl_cons]
    exact ih (g acc x) (fun acc' y hy => h acc' y (List.mem_cons_of_mem x hy))

/-- With no uniqueness violation anywhere, the reminder-scan loop completes
normally and its state is exactly `process_reminders`. -/
theorem process_remindersE_of_no_dup (now : Int) (nOk : Nat → String → Bool) (st : DBState) :
    process_remindersE now nOk (fun _ => false) st =
      Except.ok (process_reminders now nOk (fun _ => false) st) := by
  unfold process_remindersE process_reminders
  exact scanFoldE_ok_of_steps _ _ _ _
    (fun acc' x _ => reminderStepE_ok_agree now nOk (fun _ => false) acc' x
      (fun _ _ => ⟨rfl, rfl⟩))

/-- With no uniqueness violation anywhere, the full reminder tick commits and
coincides with the no-violation transformer `run_reminders`. -/
theorem run_remindersE_of_no_dup (now : Int) (nOk : Nat → String → Bool) (st : DBState) :
    run_remindersE now nOk (fun _ => false) st =
      ((run_reminders now nOk (fun _ => false) st).1,
       (run_reminders now nOk (fun _ => false) st).2, true) := by
  unfold run_remindersE run_reminders
  rw [process_remindersE_of_no_dup]

theorem mem_joinOwners (st : DBState) (t : TaskRow) (u : UserRow) :
    (t, u) ∈ joinOwners st ↔
      t ∈ st.tasks ∧
      ∃ b, st.boards.find? (fun b' => b'.id == t.board_id) = some b ∧
        st.users.find? (fun u' => u'.id == b.owner_id) = some u := by
  unfold joinOwners
  rw [List.mem_filterMap]
  constructor
  · rintro ⟨t', ht', hf⟩
    rcases hb : st.boards.find? (fun b' => b'.id == t'.board_id) with _ | b
    · rw [hb] at hf; dsimp only at hf; cases hf
    · rw [hb] at hf
      dsimp only at hf
      rcases hu : st.users.find? (fun u' => u'.id == b.owner_id) with _ | u'
      · rw [hu] at hf; dsimp only at hf; cases hf
      · rw [hu] at hf
        dsimp only at hf
        have h2 : t' = t ∧ u' = u := by
          have := Option.some.inj hf
          exact ⟨congrArg Prod.fst this, congrArg Prod.snd this⟩
        obtain ⟨rfl, rfl⟩ := h2
        exact ⟨ht', b, hb, hu⟩
  · rintro ⟨ht, b, hb, hu⟩
    refine ⟨t, ht, ?_⟩
    rw [hb]
    dsimp only
    rw [hu]

/-- Membership in the reminder candidate list. -/
theorem mem_reminderCandidates (st : DBState) (now : Int) (t : TaskRow) (u : UserRow) :
    (t, u) ∈ reminderCandidates st now ↔
      ((t, u) ∈ joinOwners st ∧
       t.completed_at = none ∧ t.reminder_at.isSome = true ∧ t.reminder_at.getD 0 ≤ now) := by
  unfold reminderCandidates
  rw [(List.perm_insertionSort remLe _).mem_iff, List.mem_filter]
  simp only [Bool.and_eq_true, decide_eq_true_eq]
  tauto

theorem sublist_map_of_filterMap {α β γ : Type} (f : α → Option β) (g : β → γ) (gg : α → γ)
    (hf : ∀ x y, f x = some y → g y = gg x) :
    ∀ l : List α, ((l.filterMap f).map g).Sublist (l.map gg) := by
  intro l
  induction l with
  | nil => simp
  | cons x xs ih =>
    rcases hfx : f x with _ | y
    · rw [List.map_cons, List.filterMap_cons, hfx]
      exact ih.cons (gg x)
    · rw [List.map_cons, List.filterMap_cons, hfx, List.map_cons, hf x y hfx]
      exact ih.cons₂ (gg x)

theorem joinOwners_ids_sublist (st : DBState) :
    ((joinOwners st).map (fun tu => tu.1.id)).Sublist (st.tasks.map TaskRow.id) := by
  unfold joinOwners
  apply sublist_map_of_filterMap
  intro x y hf
  rcases hb : st.boards.find? (fun b' => b'.id == x.board_id) with _ | b
  · rw [hb] at hf; dsimp only at hf; cases hf
  · rw [hb] at hf
    dsimp only at hf
    rcases hu : st.users.find? (fun u' => u'.id == b.owner_id) with _ | u'
    · rw [hu] at hf; dsimp only at hf; cases hf
    · rw [hu] at hf
      dsimp only at hf
      have := Option.some.inj hf
      rw [← this]

/-- Distinct task primary keys make the candidate list's task ids distinct. -/
theorem reminderCandidates_ids_nodup (st : DBState) (now : Int)
    (h : (st.tasks.map TaskRow.id).Nodup) :
    ((reminderCandidates st now).map (fun tu => tu.1.id)).Nodup := by
  unfold reminderCandidates
  have hperm := (List.perm_insertionSort remLe
    ((joinOwners st).filter
      (fun tu => decide (tu.1.completed_at = none) && tu.1.reminder_at.isSome &&
        decide (tu.1.reminder_at.getD 0 ≤ now)))).map (fun tu => tu.1.id)
  apply hperm.nodup_iff.mpr
  have hsub : ((joinOwners st).filter
      (fun tu => decide (tu.1.completed_at = none) && tu.1.reminder_at.isSome &&
        decide (tu.1.reminder_at.getD 0 ≤ now))).Sublist (joinOwners st) :=
    List.filter_sublist _
  exact ((hsub.map (fun tu => tu.1.id)).trans (joinOwners_ids_sublist st)).nodup h

/-! ### Claims -/

/-- C5: Reminder-instant derivation: for every due instant `D` and computation
instant `N`, if `D` is none the reminder instant is none; if `D - 1h > N` the
reminder instant equals `D - 1h`; otherwise it equals `D`. -/
theorem C5_reminder_instant_derivation (d n : Int) :
    next_reminder_at none n = none ∧
    next_reminder_at (some d) n =
      (if d - 3600 > n then some (d - 3600) else some d) := by
  exact ⟨rfl, rfl⟩

/-- C10: `create_task` with an arbitrary integer priority `p` stores priority
`max 1 (min p 3)` — out-of-range priorities are silently clamped into
`[1, 3]`, not rejected. -/
theorem C10_priority_clamped (columns : List ColumnRow) (board_id tid : Nat)
    (title description : String) (p : Int) (due_at : Option Int) (now : Int)
    (hcol : columns ≠ []) :
    ∃ task, create_task columns board_id tid title description p due_at now = some task ∧
      task.priority = max 1 (min p 3) ∧ 1 ≤ task.priority ∧ task.priority ≤ 3 := by
  unfold create_task
  dsimp only
  rcases hact : (columns.filter fun c => !c.is_done).head? with _ | c
  · rw [hact]
    cases columns with
    | nil => exact absurd rfl hcol
    | cons c₀ cs =>
      refine ⟨_, rfl, rfl, ?_, ?_⟩ <;> simp
  · rw [hact]
    refine ⟨_, rfl, rfl, ?_, ?_⟩ <;> simp

/-- Witness for C10 at a concrete input: one active column, priority 7 is
clamped to 3. -/
theorem C10_priority_clamped_witness :
    ([⟨1, false⟩] : List ColumnRow) ≠ [] ∧
    ∃ task, create_task [⟨1, false⟩] 1 1 "t" "" 7 none 0 = some task ∧
      task.priority = max 1 (min 7 3) ∧ 1 ≤ task.priority ∧ task.priority ≤ 3 :=
  ⟨by decide, C10_priority_clamped [⟨1, false⟩] 1 1 "t" "" 7 none 0 (by decide)⟩

/-- C9: Scheduler frame condition: neither the reminder scan nor the digest
scan modifies any Task, User or Board row; each only appends NotificationLog
rows. -/
theorem C9_scheduler_frame (now wallNow dh dm : Int) (nOk : Nat → String → Bool)
    (aDup : String → Bool) (st : DBState) :
    (run_reminders now nOk aDup st).1.tasks = st.tasks ∧
    (run_reminders now nOk aDup st).1.users = st.users ∧
    (run_reminders now nOk aDup st).1.boards = st.boards ∧
    (∃ Δ, (run_reminders now nOk aDup st).1.ledger = st.ledger ++ Δ) ∧
    (run_digest now wallNow dh dm nOk aDup st).1.tasks = st.tasks ∧
    (run_digest now wallNow dh dm nOk aDup st).1.users = st.users ∧
    (run_digest now wallNow dh dm nOk aDup st).1.boards = st.boards ∧
    (∃ Δ, (run_digest now wallNow dh dm nOk aDup st).1.ledger = st.ledger ++ Δ) := by
  refine ⟨rfl, rfl, rfl, ?_, rfl, rfl, rfl, ?_⟩
  · obtain ⟨Δ, Δm, h, -⟩ := scan_foldl_extends _ (reminderStep_extends now nOk aDup)
      (reminderCandidates st now) ⟨st.ledger, []⟩
    exact ⟨Δ, h⟩
  · obtain ⟨Δ, Δm, h, -⟩ := scan_foldl_extends _
      (digestStep_extends now wallNow dh dm st nOk aDup)
      (st.users.filter (fun u => u.digest_enabled)) ⟨st.ledger, []⟩
    exact ⟨Δ, h⟩

set_option maxRecDepth 100000 in
/-- C7 counterexample: Python's `datetime.isoformat()` on a UTC instant
renders the offset as `+00:00`, never `Z`; for task id 7 with reminder
instant 2026-02-20T11:30Z the canonical key is
`reminder:7:2026-02-20T11:30:00+00:00`, not `reminder:7:2026-02-20T11:30:00Z`
as the claim's example states. -/
theorem C7_key_format_counterexample :
    reminderKey 7 1771587000 = "reminder:7:2026-02-20T11:30:00+00:00" ∧
    reminderKey 7 1771587000 ≠ "reminder:7:2026-02-20T11:30:00Z" := by
  constructor
  · decide
  · decide

set_option maxRecDepth 100000 in
/-- C7 (amended): the canonical dedupe key is
`"reminder:" + task_id + ":" + isoformat(reminder_at)`, where the ISO form of
a UTC instant carries the `+00:00` offset; in the claim's scenario the single
`sent` row's key is `reminder:7:2026-02-20T11:30:00+00:00`, and a repeated
scan one minute later appends nothing. -/
theorem C7_key_format_amended :
    (∀ (tid : Nat) (r : Int),
      reminderKey tid r = "reminder:" ++ natDecimal tid ++ ":" ++ isoUtc r) ∧
    (run_reminders 1771587000 (fun _ _ => true) (fun _ => false)
        ⟨[⟨1, 100, 0, true⟩], [⟨1, 1⟩],
         [⟨7, 1, some 1, "T", "", 2, "active", some 1771590600, some 1771587000, none⟩],
         []⟩).1.ledger =
      [⟨some 1, some 7, "reminder", "reminder:7:2026-02-20T11:30:00+00:00", "sent"⟩] ∧
    (run_reminders 1771587060 (fun _ _ => true) (fun _ => false)
        ⟨[⟨1, 100, 0, true⟩], [⟨1, 1⟩],
         [⟨7, 1, some 1, "T", "", 2, "active", some 1771590600, some 1771587000, none⟩],
         [⟨some 1, some 7, "reminder", "reminder:7:2026-02-20T11:30:00+00:00", "sent"⟩]⟩).1.ledger =
      [⟨some 1, some 7, "reminder", "reminder:7:2026-02-20T11:30:00+00:00", "sent"⟩] := by
  refine ⟨fun tid r => rfl, by decide, by decide⟩

/-- C6: Reminder candidate selection and order: the candidate set is exactly
the tasks with null completion instant and a non-null reminder instant
`≤ now` (paired with their owning user), and candidates are ordered by
reminder instant ascending. Foreign-key integrity of boards and owners is
assumed, as enforced by the schema. -/
theorem C6_candidate_selection (st : DBState) (now : Int)
    (hFKb : ∀ t ∈ st.tasks, ∃ b ∈ st.boards, b.id = t.board_id)
    (hFKu : ∀ b ∈ st.boards, ∃ u ∈ st.users, u.id = b.owner_id) :
    (∀ t : TaskRow,
      (t ∈ st.tasks ∧ t.completed_at = none ∧ ∃ r, t.reminder_at = some r ∧ r ≤ now) ↔
      ∃ u, (t, u) ∈ reminderCandidates st now) ∧
    List.Sorted remLe (reminderCandidates st now) := by
  constructor
  · intro t
    constructor
    · rintro ⟨ht, hc, r, hr, hle⟩
      obtain ⟨b₀, hb₀, hbid⟩ := hFKb t ht
      have hfb : (st.boards.find? (fun b' => b'.id == t.board_id)).isSome = true := by
        rw [List.find?_isSome]
        exact ⟨b₀, hb₀, by simp [hbid]⟩
      obtain ⟨b, hb⟩ := Option.isSome_iff_exists.mp hfb
      obtain ⟨u₀, hu₀, huid⟩ := hFKu b (List.mem_of_find?_eq_some hb)
      have hfu : (st.users.find? (fun u' => u'.id == b.owner_id)).isSome = true := by
        rw [List.find?_isSome]
        exact ⟨u₀, hu₀, by simp [huid]⟩
      obtain ⟨u, hu⟩ := Option.isSome_iff_exists.mp hfu
      refine ⟨u, (mem_reminderCandidates st now t u).mpr ?_⟩
      refine ⟨(mem_joinOwners st t u).mpr ⟨ht, b, hb, hu⟩, hc, by simp [hr], by simp [hr]; exact hle⟩
    · rintro ⟨u, hu⟩
      obtain ⟨hj, hc, hsome, hle⟩ := (mem_reminderCandidates st now t u).mp hu
      obtain ⟨ht, -⟩ := (mem_joinOwners st t u).mp hj
      rcases hr : t.reminder_at with _ | r
      · rw [hr] at hsome; cases hsome
      · refine ⟨ht, hc, r, rfl, ?_⟩
        rw [hr] at hle
        simpa using hle
  · exact List.sorted_insertionSort remLe _

/-- Witness for C6 at a concrete one-task store. -/
theorem C6_candidate_selection_witness :
    (∀ t ∈ ([⟨7, 1, some 1, "T", "", 2, "active", some 1771590600, some 1771587000, none⟩] :
        List TaskRow), ∃ b ∈ ([⟨1, 1⟩] : List BoardRow), b.id = t.board_id) ∧
    (∀ b ∈ ([⟨1, 1⟩] : List BoardRow), ∃ u ∈ ([⟨1, 100, 0, true⟩] : List UserRow),
      u.id = b.owner_id) ∧
    ((∀ t : TaskRow,
      (t ∈ (⟨[⟨1, 100, 0, true⟩], [⟨1, 1⟩],
          [⟨7, 1, some 1, "T", "", 2, "active", some 1771590600, some 1771587000, none⟩],
          []⟩ : DBState).tasks ∧ t.completed_at = none ∧
        ∃ r, t.reminder_at = some r ∧ r ≤ 1771587000) ↔
      ∃ u, (t, u) ∈ reminderCandidates
        ⟨[⟨1, 100, 0, true⟩], [⟨1, 1⟩],
         [⟨7, 1, some 1, "T", "", 2, "active", some 1771590600, some 1771587000, none⟩],
         []⟩ 1771587000) ∧
     List.Sorted remLe (reminderCandidates
        ⟨[⟨1, 100, 0, true⟩], [⟨1, 1⟩],
         [⟨7, 1, some 1, "T", "", 2, "active", some 1771590600, some 1771587000, none⟩],
         []⟩ 1771587000)) :=
  ⟨by decide, by decide,
    C6_candidate_selection
      ⟨[⟨1, 100, 0, true⟩], [⟨1, 1⟩],
       [⟨7, 1, some 1, "T", "", 2, "active", some 1771590600, some 1771587000, none⟩],
       []⟩ 1771587000 (by decide) (by decide)⟩

theorem notification_sent_false_iff_rows (l : List LogRow) (k : String) :
    notification_sent l k = false ↔ rowsForKey l k = [] := by
  rw [notification_sent_eq_false_iff]
  unfold rowsForKey
  rw [List.filter_eq_nil_iff]
  simp

theorem nodup_split_ne {α β : Type} (f : α → β) (l₁ l₂ : List α) (x : α)
    (h : ((l₁ ++ x :: l₂).map f).Nodup) :
    (∀ a ∈ l₁, f a ≠ f x) ∧ (∀ a ∈ l₂, f a ≠ f x) := by
  rw [List.map_append, List.map_cons, List.nodup_middle, List.nodup_cons] at h
  obtain ⟨hnot, -⟩ := h
  constructor
  · intro a ha he
    exact hnot (List.mem_append.mpr (Or.inl (he ▸ List.mem_map_of_mem f ha)))
  · intro a ha he
    exact hnot (List.mem_append.mpr (Or.inr (he ▸ List.mem_map_of_mem f ha)))

/-- A canonical key never equals its own timestamped failure key. -/
theorem reminderKey_ne_failed (tid : Nat) (r : Int) (s : String) :
    reminderKey tid r ≠ reminderKey tid r ++ ":failed:" ++ s := by
  intro he
  have := congrArg String.length he
  rw [String.length_append, String.length_append] at this
  have h8 : (":failed:" : String).length = 8 := rfl
  omega

/-- Core reminder-scan lemma, success case: a candidate whose canonical key
is not yet in the ledger and whose send succeeds contributes exactly one
`sent` row under its canonical key and exactly one outbound message. -/
theorem reminder_scan_success (st : DBState) (now : Int) (nOk : Nat → String → Bool)
    (t : TaskRow) (u : UserRow) (r : Int)
    (hids : (st.tasks.map TaskRow.id).Nodup)
    (hmem : (t, u) ∈ reminderCandidates st now)
    (hr : t.reminder_at = some r)
    (hs : notification_sent st.ledger (reminderKey t.id r) = false)
    (hok : nOk u.telegram_id (reminderText t u) = true) :
    rowsForKey (process_reminders now nOk (fun _ => false) st).ledger (reminderKey t.id r) =
      [⟨some u.id, some t.id, "reminder", reminderKey t.id r, "sent"⟩] ∧
    msgsForTag (process_reminders now nOk (fun _ => false) st).msgs t.id =
      [⟨u.telegram_id, reminderText t u, t.id⟩] := by
  obtain ⟨l₁, l₂, hdec⟩ := List.append_of_mem hmem
  have hnodup := reminderCandidates_ids_nodup st now hids
  rw [hdec] at hnodup
  obtain ⟨hne₁, hne₂⟩ := nodup_split_ne (fun tu => tu.1.id) l₁ l₂ (t, u) hnodup
  unfold process_reminders
  rw [hdec, List.foldl_append, List.foldl_cons]
  set acc₀ : ScanAcc := ⟨st.ledger, []⟩ with hacc₀
  set acc₁ := l₁.foldl (reminderStep now nOk (fun _ => false)) acc₀ with hacc₁
  have hph₁ := reminder_fold_others now nOk (fun _ => false) t.id r l₁ acc₀ hne₁
  have hrows₁ : rowsForKey acc₁.ledger (reminderKey t.id r) = [] := by
    rw [← hacc₁] at hph₁
    rw [hph₁.1, hacc₀]
    exact (notification_sent_false_iff_rows _ _).mp hs
  have hmsgs₁ : msgsForTag acc₁.msgs t.id = [] := by
    rw [← hacc₁] at hph₁
    rw [hph₁.2, hacc₀]
    rfl
  have hsent₁ : notification_sent acc₁.ledger (reminderKey t.id r) = false :=
    (notification_sent_false_iff_rows _ _).mpr hrows₁
  have hstep := reminderStep_hit now nOk acc₁ t u r hr hsent₁ hok
  rw [hstep]
  set acc₂ : ScanAcc :=
    { ledger := acc₁.ledger ++ [⟨some u.id, some t.id, "reminder", reminderKey t.id r, "sent"⟩],
      msgs := acc₁.msgs ++ [⟨u.telegram_id, reminderText t u, t.id⟩] } with hacc₂
  have hph₂ := reminder_fold_others now nOk (fun _ => false) t.id r l₂ acc₂ hne₂
  constructor
  · rw [hph₂.1, hacc₂]
    show rowsForKey (acc₁.ledger ++ _) _ = _
    rw [rowsForKey_append, hrows₁]
    simp [rowsForKey]
  · rw [hph₂.2, hacc₂]
    show msgsForTag (acc₁.msgs ++ _) _ = _
    rw [msgsForTag_append, hmsgs₁]
    simp [msgsForTag]

/-- Core reminder-scan lemma, send-failure case: the candidate contributes a
`failed` row under the timestamped key, no `sent` row under its canonical
key, and no outbound message. -/
theorem reminder_scan_failure (st : DBState) (now : Int) (nOk : Nat → String → Bool)
    (t : TaskRow) (u : UserRow) (r : Int)
    (hids : (st.tasks.map TaskRow.id).Nodup)
    (hmem : (t, u) ∈ reminderCandidates st now)
    (hr : t.reminder_at = some r)
    (hs : notification_sent st.ledger (reminderKey t.id r) = false)
    (hno : nOk u.telegram_id (reminderText t u) = false) :
    (⟨some u.id, some t.id, "reminder",
        reminderKey t.id r ++ ":failed:" ++ intDecimal now, "failed"⟩ : LogRow) ∈
      (process_reminders now nOk (fun _ => false) st).ledger ∧
    rowsForKey (process_reminders now nOk (fun _ => false) st).ledger (reminderKey t.id r) = [] ∧
    msgsForTag (process_reminders now nOk (fun _ => false) st).msgs t.id = [] := by
  obtain ⟨l₁, l₂, hdec⟩ := List.append_of_mem hmem
  have hnodup := reminderCandidates_ids_nodup st now hids
  rw [hdec] at hnodup
  obtain ⟨hne₁, hne₂⟩ := nodup_split_ne (fun tu => tu.1.id) l₁ l₂ (t, u) hnodup
  unfold process_reminders
  rw [hdec, List.foldl_append, List.foldl_cons]
  set acc₀ : ScanAcc := ⟨st.ledger, []⟩ with hacc₀
  set acc₁ := l₁.foldl (reminderStep now nOk (fun _ => false)) acc₀ with hacc₁
  have hph₁ := reminder_fold_others now nOk (fun _ => false) t.id r l₁ acc₀ hne₁
  have hrows₁ : rowsForKey acc₁.ledger (reminderKey t.id r) = [] := by
    rw [← hacc₁] at hph₁
    rw [hph₁.1, hacc₀]
    exact (notification_sent_false_iff_rows _ _).mp hs
  have hmsgs₁ : msgsForTag acc₁.msgs t.id = [] := by
    rw [← hacc₁] at hph₁
    rw [hph₁.2, hacc₀]
    rfl
  have hsent₁ : notification_sent acc₁.ledger (reminderKey t.id r) = false :=
    (notification_sent_false_iff_rows _ _).mpr hrows₁
  have hstep := reminderStep_sendfail now nOk (fun _ => false) acc₁ t u r hr hsent₁ hno rfl
  rw [hstep]
  set frow : LogRow :=
    ⟨some u.id, some t.id, "reminder", reminderKey t.id r ++ ":failed:" ++ intDecimal now,
      "failed"⟩ with hfrow
  set acc₂ : ScanAcc := { ledger := acc₁.ledger ++ [frow], msgs := acc₁.msgs } with hacc₂
  have hph₂ := reminder_fold_others now nOk (fun _ => false) t.id r l₂ acc₂ hne₂
  refine ⟨?_, ?_, ?_⟩
  · obtain ⟨Δ, Δm, hΔ, -⟩ := scan_foldl_extends _
      (reminderStep_extends now nOk (fun _ => false)) l₂ acc₂
    rw [hΔ, hacc₂]
    exact List.mem_append.mpr (Or.inl (List.mem_append.mpr (Or.inr (List.mem_singleton.mpr rfl))))
  · rw [hph₂.1, hacc₂]
    show rowsForKey (acc₁.ledger ++ _) _ = _
    rw [rowsForKey_append, hrows₁]
    rw [rowsForKey_singleton_ne]
    · rfl
    · exact Ne.symm (reminderKey_ne_failed t.id r (intDecimal now))
  · rw [hph₂.2, hacc₂]
    exact hmsgs₁

/-- Core reminder-scan lemma, duplicate-key case: when the distinguished
candidate's `sent` insert hits the uniqueness constraint (and no other key
is reported violated), its handler's flush raises a pending-rollback error
that escapes the per-candidate handling: the loop aborts there with the
session-local state carrying the candidate's already-delivered message and
no row for its canonical key, and the tick rolls back to the original
store. -/
theorem reminder_scan_dupE (st : DBState) (now : Int) (nOk : Nat → String → Bool)
    (aDup : String → Bool) (t : TaskRow) (u : UserRow) (r : Int)
    (hids : (st.tasks.map TaskRow.id).Nodup)
    (hmem : (t, u) ∈ reminderCandidates st now)
    (hr : t.reminder_at = some r)
    (hs : notification_sent st.ledger (reminderKey t.id r) = false)
    (hok : ∀ c s, nOk c s = true)
    (hdup : aDup (reminderKey t.id r) = true)
    (honly : ∀ k, aDup k = true → k = reminderKey t.id r) :
    ∃ acc : ScanAcc, process_remindersE now nOk aDup st = Except.error acc ∧
      rowsForKey acc.ledger (reminderKey t.id r) = [] ∧
      msgsForTag acc.msgs t.id = [⟨u.telegram_id, reminderText t u, t.id⟩] ∧
      run_remindersE now nOk aDup st = (st, acc.msgs, false) := by
  obtain ⟨l₁, l₂, hdec⟩ := List.append_of_mem hmem
  have hnodup := reminderCandidates_ids_nodup st now hids
  rw [hdec] at hnodup
  obtain ⟨hne₁, hne₂⟩ := nodup_split_ne (fun tu => tu.1.id) l₁ l₂ (t, u) hnodup
  set acc₀ : ScanAcc := ⟨st.ledger, []⟩ with hacc₀
  set acc₁ := l₁.foldl (reminderStep now nOk aDup) acc₀ with hacc₁
  -- every iteration before the distinguished candidate completes normally
  have hsteps : ∀ (acc' : ScanAcc), ∀ x ∈ l₁,
      reminderStepE now nOk aDup acc' x = Except.ok (reminderStep now nOk aDup acc' x) := by
    intro acc' x hx
    apply reminderStepE_ok_agree
    intro r' hr'
    constructor
    · cases hd : aDup (reminderKey x.1.id r') with
      | false => rfl
      | true =>
        exact absurd (reminderKey_inj _ _ _ _ (honly _ hd)) (hne₁ x hx)
    · cases hd : aDup (reminderKey x.1.id r' ++ ":failed:" ++ intDecimal now) with
      | false => rfl
      | true =>
        have hkey := honly _ hd
        rw [String.append_assoc] at hkey
        exact absurd hkey.symm
          (reminderKey_ne_append t.id x.1.id r r' _ (fun h => hne₁ x hx h.symm))
  have hfold₁ : scanFoldE (reminderStepE now nOk aDup) acc₀ l₁ = Except.ok acc₁ :=
    scanFoldE_ok_of_steps _ _ l₁ acc₀ hsteps
  have hph₁ := reminder_fold_others now nOk aDup t.id r l₁ acc₀ hne₁
  have hrows₁ : rowsForKey acc₁.ledger (reminderKey t.id r) = [] := by
    rw [← hacc₁] at hph₁
    rw [hph₁.1, hacc₀]
    exact (notification_sent_false_iff_rows _ _).mp hs
  have hmsgs₁ : msgsForTag acc₁.msgs t.id = [] := by
    rw [← hacc₁] at hph₁
    rw [hph₁.2, hacc₀]
    rfl
  have hsent₁ : notification_sent acc₁.ledger (reminderKey t.id r) = false :=
    (notification_sent_false_iff_rows _ _).mpr hrows₁
  set accE : ScanAcc :=
    { ledger := acc₁.ledger, msgs := acc₁.msgs ++ [⟨u.telegram_id, reminderText t u, t.id⟩] }
    with haccE
  have hstepE := reminderStepE_dup now nOk aDup acc₁ t u r hr hsent₁ (hok _ _) hdup
  have hrun : process_remindersE now nOk aDup st = Except.error accE := by
    unfold process_remindersE
    rw [hdec, ← hacc₀, scanFoldE_append _ l₁ ((t, u) :: l₂) acc₀ acc₁ hfold₁]
    exact scanFoldE_error_cons _ _ _ _ _ hstepE
  have hmsgsE : msgsForTag accE.msgs t.id = [⟨u.telegram_id, reminderText t u, t.id⟩] := by
    rw [haccE]
    show msgsForTag (acc₁.msgs ++ _) _ = _
    rw [msgsForTag_append, hmsgs₁]
    simp [msgsForTag]
  refine ⟨accE, hrun, by rw [haccE]; exact hrows₁, hmsgsE, ?_⟩
  unfold run_remindersE
  rw [hrun]

/-- Under foreign-key integrity, a task meeting the scan conditions appears
in the candidate list with some owning user. -/
theorem candidate_of_task (st : DBState) (now : Int) (t : TaskRow) (r : Int)
    (hFKb : ∀ t' ∈ st.tasks, ∃ b ∈ st.boards, b.id = t'.board_id)
    (hFKu : ∀ b ∈ st.boards, ∃ u ∈ st.users, u.id = b.owner_id)
    (ht : t ∈ st.tasks) (hc : t.completed_at = none) (hr : t.reminder_at = some r)
    (hle : r ≤ now) :
    ∃ u, (t, u) ∈ reminderCandidates st now := by
  obtain ⟨b₀, hb₀, hbid⟩ := hFKb t ht
  have hfb : (st.boards.find? (fun b' => b'.id == t.board_id)).isSome = true := by
    rw [List.find?_isSome]
    exact ⟨b₀, hb₀, by simp [hbid]⟩
  obtain ⟨b, hb⟩ := Option.isSome_iff_exists.mp hfb
  obtain ⟨u₀, hu₀, huid⟩ := hFKu b (List.mem_of_find?_eq_some hb)
  have hfu : (st.users.find? (fun u' => u'.id == b.owner_id)).isSome = true := by
    rw [List.find?_isSome]
    exact ⟨u₀, hu₀, by simp [huid]⟩
  obtain ⟨u, hu⟩ := Option.isSome_iff_exists.mp hfu
  refine ⟨u, (mem_reminderCandidates st now t u).mpr ?_⟩
  exact ⟨(mem_joinOwners st t u).mpr ⟨ht, b, hb, hu⟩, hc, by simp [hr], by simp [hr]; exact hle⟩

/-- C1: Reminder-scan idempotence: for a task with null completion instant
and reminder instant `≤ now` whose canonical key is not yet in the ledger,
two successive scans at the same `now` with an always-successful notifier
leave exactly one `sent` ledger row under the task's canonical dedupe key
and exactly one outbound message for that task; the second scan sends
nothing and appends nothing. -/
theorem C1_reminder_idempotence (st : DBState) (now : Int) (nOk : Nat → String → Bool)
    (t : TaskRow) (r : Int)
    (hok : ∀ c s, nOk c s = true)
    (hids : (st.tasks.map TaskRow.id).Nodup)
    (hFKb : ∀ t' ∈ st.tasks, ∃ b ∈ st.boards, b.id = t'.board_id)
    (hFKu : ∀ b ∈ st.boards, ∃ u ∈ st.users, u.id = b.owner_id)
    (ht : t ∈ st.tasks) (hc : t.completed_at = none) (hr : t.reminder_at = some r)
    (hle : r ≤ now)
    (hs : notification_sent st.ledger (reminderKey t.id r) = false) :
    ∃ u : UserRow,
      rowsForKey (run_reminders now nOk (fun _ => false)
          (run_reminders now nOk (fun _ => false) st).1).1.ledger (reminderKey t.id r) =
        [⟨some u.id, some t.id, "reminder", reminderKey t.id r, "sent"⟩] ∧
      msgsForTag ((run_reminders now nOk (fun _ => false) st).2 ++
          (run_reminders now nOk (fun _ => false)
            (run_reminders now nOk (fun _ => false) st).1).2) t.id =
        [⟨u.telegram_id, reminderText t u, t.id⟩] ∧
      (run_reminders now nOk (fun _ => false)
          (run_reminders now nOk (fun _ => false) st).1).1.ledger =
        (run_reminders now nOk (fun _ => false) st).1.ledger ∧
      (run_reminders now nOk (fun _ => false)
          (run_reminders now nOk (fun _ => false) st).1).2 = [] := by
  obtain ⟨u, hmem⟩ := candidate_of_task st now t r hFKb hFKu ht hc hr hle
  obtain ⟨hrows, hmsgs⟩ := reminder_scan_success st now nOk t u r hids hmem hr hs (hok _ _)
  have hpresent := reminder_fold_keys_present now nOk hok (reminderCandidates st now)
    ⟨st.ledger, []⟩
  -- after run 1, every candidate's canonical key is in the ledger
  set st₁ := (run_reminders now nOk (fun _ => false) st).1 with hst₁
  have hcand₂ : reminderCandidates st₁ now = reminderCandidates st now := rfl
  have hnoop : (reminderCandidates st₁ now).foldl (reminderStep now nOk (fun _ => false))
      ⟨st₁.ledger, []⟩ = ⟨st₁.ledger, []⟩ := by
    rw [hcand₂]
    apply reminder_fold_noop
    intro tu htu r' hr'
    have := hpresent tu htu r' hr'
    exact this
  have hrun₂ : run_reminders now nOk (fun _ => false) st₁ = (⟨{ st₁ with ledger := st₁.ledger }, []⟩) := by
    unfold run_reminders process_reminders
    rw [hnoop]
  refine ⟨u, ?_, ?_, ?_, ?_⟩
  · rw [hrun₂]
    exact hrows
  · rw [hrun₂]
    rw [msgsForTag_append]
    have h2 : msgsForTag ([] : List Msg) t.id = [] := rfl
    rw [h2, List.append_nil]
    exact hmsgs
  · rw [hrun₂]
  · rw [hrun₂]

/-- Ledger rows referencing a given user. -/
def rowsForUser (l : List LogRow) (uid : Nat) : List LogRow :=
  l.filter (fun e => e.user_id == some uid)

theorem rowsForUser_append (l₁ l₂ : List LogRow) (uid : Nat) :
    rowsForUser (l₁ ++ l₂) uid = rowsForUser l₁ uid ++ rowsForUser l₂ uid := by
  unfold rowsForUser
  exact List.filter_append _ _

theorem rowsForUser_singleton_ne (e : LogRow) (uid : Nat) (h : e.user_id ≠ some uid) :
    rowsForUser [e] uid = [] := by
  simp [rowsForUser, h]

theorem digestKey_inj (id₁ id₂ d₁ d₂ : Nat) (h : digestKey id₁ d₁ = digestKey id₂ d₂) :
    id₁ = id₂ ∧ dateIso d₁ = dateIso d₂ := by
  have hd := congrArg String.data h
  rw [digestKey_data, digestKey_data] at hd
  have := tagged_key_inj _ _ _ _ _ hd
  exact ⟨this.1, String.ext this.2⟩

/-- A user whose local wall clock misses the configured digest minute, or who
has no board, is skipped entirely, whatever the accumulator. -/
theorem digestStep_skip_forall (now wallNow dh dm : Int) (st : DBState)
    (nOk : Nat → String → Bool) (aDup : String → Bool) (u : UserRow)
    (h : (hourOfLocal (now + u.tzOffset) ≠ dh ∨ minuteOfLocal (now + u.tzOffset) ≠ dm) ∨
      st.boards.find? (fun b => b.owner_id == u.id) = none) :
    ∀ acc, digestStep now wallNow dh dm st nOk aDup acc u = acc := by
  intro acc
  unfold digestStep
  dsimp only
  rcases h with hhm | hb
  · rw [if_pos hhm]
  · by_cases hhm : hourOfLocal (now + u.tzOffset) ≠ dh ∨ minuteOfLocal (now + u.tzOffset) ≠ dm
    · rw [if_pos hhm]
    · rw [if_neg hhm]
      cases hs : notification_sent acc.ledger (digestKey u.id (dayIndex (now + u.tzOffset))) with
      | true => simp [hs]
      | false =>
        simp only [hs, Bool.false_eq_true, if_false]
        rw [hb]

/-- A user whose digest key for the tick's local day is already in the
ledger is skipped. -/
theorem digestStep_skip_sent (now wallNow dh dm : Int) (st : DBState)
    (nOk : Nat → String → Bool) (aDup : String → Bool) (u : UserRow) (acc : ScanAcc)
    (hs : notification_sent acc.ledger (digestKey u.id (dayIndex (now + u.tzOffset))) = true) :
    digestStep now wallNow dh dm st nOk aDup acc u = acc := by
  unfold digestStep
  dsimp only
  by_cases hhm : hourOfLocal (now + u.tzOffset) ≠ dh ∨ minuteOfLocal (now + u.tzOffset) ≠ dm
  · rw [if_pos hhm]
  · rw [if_neg hhm]
    simp [hs]

/-- A digest-enabled user reached at the matching minute with the key absent,
a board, and a successful send appends exactly the `sent` row and message. -/
theorem digestStep_hit (now wallNow dh dm : Int) (st : DBState)
    (nOk : Nat → String → Bool) (u : UserRow) (acc : ScanAcc) (board : BoardRow)
    (hhm : ¬(hourOfLocal (now + u.tzOffset) ≠ dh ∨ minuteOfLocal (now + u.tzOffset) ≠ dm))
    (hs : notification_sent acc.ledger (digestKey u.id (dayIndex (now + u.tzOffset))) = false)
    (hb : st.boards.find? (fun b => b.owner_id == u.id) = some board)
    (hok : nOk u.telegram_id (digestText st.tasks board.id u.tzOffset wallNow) = true) :
    digestStep now wallNow dh dm st nOk (fun _ => false) acc u =
      { ledger := acc.ledger ++ [⟨some u.id, none, "digest",
          digestKey u.id (dayIndex (now + u.tzOffset)), "sent"⟩],
        msgs := acc.msgs ++
          [⟨u.telegram_id, digestText st.tasks board.id u.tzOffset wallNow, u.id⟩] } := by
  unfold digestStep
  dsimp only
  rw [if_neg hhm]
  simp only [hs, Bool.false_eq_true, if_false]
  rw [hb]
  simp [hok]

/-- Iterations for other user ids do not touch a given user's rows, a given
digest key of that user, or that user's messages. -/
theorem digestStep_others (now wallNow dh dm : Int) (st : DBState)
    (nOk : Nat → String → Bool) (aDup : String → Bool) (acc : ScanAcc) (u' : UserRow)
    (uid d : Nat) (hne : u'.id ≠ uid) :
    rowsForUser (digestStep now wallNow dh dm st nOk aDup acc u').ledger uid =
      rowsForUser acc.ledger uid ∧
    rowsForKey (digestStep now wallNow dh dm st nOk aDup acc u').ledger (digestKey uid d) =
      rowsForKey acc.ledger (digestKey uid d) ∧
    msgsForTag (digestStep now wallNow dh dm st nOk aDup acc u').msgs uid =
      msgsForTag acc.msgs uid := by
  have huser : ∀ tid : Option Nat, ∀ ty key stat,
      (⟨some u'.id, tid, ty, key, stat⟩ : LogRow).user_id ≠ some uid := by
    intro tid ty key stat h
    exact hne (Option.some.inj h)
  have hkeyc : ∀ d', (⟨some u'.id, (none : Option Nat), "digest", digestKey u'.id d',
      "sent"⟩ : LogRow).dedupe_key ≠ digestKey uid d := by
    intro d' h
    exact hne (digestKey_inj _ _ _ _ h).1
  have hkeyf : ∀ d' s, digestKey u'.id d' ++ ":failed:" ++ s ≠ digestKey uid d := by
    intro d' s h
    refine digestKey_ne_append uid u'.id d d' (":failed:" ++ s) (fun hh => hne hh.symm) ?_
    rw [← String.append_assoc]
    exact h.symm
  have htag : ∀ txt, (⟨u'.telegram_id, txt, u'.id⟩ : Msg).tag ≠ uid := fun _ => hne
  unfold digestStep
  dsimp only
  by_cases hhm : hourOfLocal (now + u'.tzOffset) ≠ dh ∨ minuteOfLocal (now + u'.tzOffset) ≠ dm
  · rw [if_pos hhm]; exact ⟨rfl, rfl, rfl⟩
  · rw [if_neg hhm]
    cases hs : notification_sent acc.ledger (digestKey u'.id (dayIndex (now + u'.tzOffset))) with
    | true => simp
    | false =>
      simp only [Bool.false_eq_true, if_false]
      cases hb : st.boards.find? (fun b => b.owner_id == u'.id) with
      | none => exact ⟨rfl, rfl, rfl⟩
      | some board =>
        cases ho : nOk u'.telegram_id (digestText st.tasks board.id u'.tzOffset wallNow) with
        | true =>
          cases hdup : aDup (digestKey u'.id (dayIndex (now + u'.tzOffset))) with
          | true =>
            simp only [ho, hdup, if_true]
            refine ⟨trivial, trivial, ?_⟩
            rw [msgsForTag_append, msgsForTag_singleton_ne _ _ (htag _), List.append_nil]
          | false =>
            simp only [ho, hdup, Bool.false_eq_true, if_false, if_true]
            refine ⟨?_, ?_, ?_⟩
            · rw [rowsForUser_append, rowsForUser_singleton_ne _ _ (huser _ _ _ _),
                List.append_nil]
            · rw [rowsForKey_append, rowsForKey_singleton_ne _ _ (hkeyc _), List.append_nil]
            · rw [msgsForTag_append, msgsForTag_singleton_ne _ _ (htag _), List.append_nil]
        | false =>
          simp only [ho, Bool.false_eq_true, if_false]
          cases hdup : aDup (digestKey u'.id (dayIndex (now + u'.tzOffset)) ++ ":failed:" ++
              intDecimal now) with
          | true =>
            simp only [hdup, if_true]
            exact ⟨trivial, trivial, trivial⟩
          | false =>
            simp only [hdup, Bool.false_eq_true, if_false]
            refine ⟨?_, ?_, ?_⟩
            · rw [rowsForUser_append, rowsForUser_singleton_ne _ _ (huser _ _ _ _),
                List.append_nil]
            · rw [rowsForKey_append, rowsForKey_singleton_ne _ _ (hkeyf _ _), List.append_nil]
            · trivial

/-- Fold preservation when the distinguished user is skipped at every
accumulator (wrong minute, or no board). -/
theorem digest_fold_user_skip (now wallNow dh dm : Int) (st : DBState)
    (nOk : Nat → String → Bool) (aDup : String → Bool) (u : UserRow) (d : Nat)
    (hskip : ∀ acc, digestStep now wallNow dh dm st nOk aDup acc u = acc) :
    ∀ (l : List UserRow) (acc : ScanAcc), (∀ u' ∈ l, u'.id = u.id → u' = u) →
      rowsForUser ((l.foldl (digestStep now wallNow dh dm st nOk aDup) acc).ledger) u.id =
        rowsForUser acc.ledger u.id ∧
      rowsForKey ((l.foldl (digestStep now wallNow dh dm st nOk aDup) acc).ledger)
          (digestKey u.id d) =
        rowsForKey acc.ledger (digestKey u.id d) ∧
      msgsForTag ((l.foldl (digestStep now wallNow dh dm st nOk aDup) acc).msgs) u.id =
        msgsForTag acc.msgs u.id := by
  intro l
  induction l with
  | nil => intro acc _; exact ⟨rfl, rfl, rfl⟩
  | cons x xs ih =>
    intro acc hone
    rw [List.foldl_cons]
    have hxs := ih (digestStep now wallNow dh dm st nOk aDup acc x)
      (fun u' hu' => hone u' (List.mem_cons_of_mem x hu'))
    by_cases hx : x.id = u.id
    · have hxu : x = u := hone x (List.mem_cons_self x xs) hx
      rw [hxu, hskip acc] at hxs ⊢
      exact hxs
    · have hother := digestStep_others now wallNow dh dm st nOk aDup acc x u.id d hx
      exact ⟨hxs.1.trans hother.1, hxs.2.1.trans hother.2.1, hxs.2.2.trans hother.2.2⟩

/-- Fold preservation when the distinguished user's digest key for this tick
is already present at the start: the user is skipped by the ledger check, and
the key stays present as the ledger only grows. -/
theorem digest_fold_user_sent (now wallNow dh dm : Int) (st : DBState)
    (nOk : Nat → String → Bool) (aDup : String → Bool) (u : UserRow) (d : Nat) :
    ∀ (l : List UserRow) (acc : ScanAcc), (∀ u' ∈ l, u'.id = u.id → u' = u) →
      notification_sent acc.ledger (digestKey u.id (dayIndex (now + u.tzOffset))) = true →
      rowsForUser ((l.foldl (digestStep now wallNow dh dm st nOk aDup) acc).ledger) u.id =
        rowsForUser acc.ledger u.id ∧
      rowsForKey ((l.foldl (digestStep now wallNow dh dm st nOk aDup) acc).ledger)
          (digestKey u.id d) =
        rowsForKey acc.ledger (digestKey u.id d) ∧
      msgsForTag ((l.foldl (digestStep now wallNow dh dm st nOk aDup) acc).msgs) u.id =
        msgsForTag acc.msgs u.id := by
  intro l
  induction l with
  | nil => intro acc _ _; exact ⟨rfl, rfl, rfl⟩
  | cons x xs ih =>
    intro acc hone hsent
    rw [List.foldl_cons]
    have hsent' : notification_sent (digestStep now wallNow dh dm st nOk aDup acc x).ledger
        (digestKey u.id (dayIndex (now + u.tzOffset))) = true := by
      obtain ⟨δ, δm, hδ, -⟩ := digestStep_extends now wallNow dh dm st nOk aDup acc x
      rw [hδ, notification_sent_append, hsent]
      rfl
    have hxs := ih (digestStep now wallNow dh dm st nOk aDup acc x)
      (fun u' hu' => hone u' (List.mem_cons_of_mem x hu')) hsent'
    by_cases hx : x.id = u.id
    · have hxu : x = u := hone x (List.mem_cons_self x xs) hx
      rw [hxu, digestStep_skip_sent now wallNow dh dm st nOk aDup u acc hsent] at hxs ⊢
      exact hxs
    · have hother := digestStep_others now wallNow dh dm st nOk aDup acc x u.id d hx
      exact ⟨hxs.1.trans hother.1, hxs.2.1.trans hother.2.1, hxs.2.2.trans hother.2.2⟩

/-- With a successful notifier and no storage race, one digest iteration
either leaves the ledger alone or appends the user's canonical `sent` row. -/
theorem digestStep_ledger_cases (now wallNow dh dm : Int) (st : DBState)
    (nOk : Nat → String → Bool) (u' : UserRow) (acc : ScanAcc)
    (hok : ∀ c s, nOk c s = true) :
    (digestStep now wallNow dh dm st nOk (fun _ => false) acc u').ledger = acc.ledger ∨
    (digestStep now wallNow dh dm st nOk (fun _ => false) acc u').ledger =
      acc.ledger ++ [⟨some u'.id, none, "digest",
        digestKey u'.id (dayIndex (now + u'.tzOffset)), "sent"⟩] := by
  unfold digestStep
  dsimp only
  by_cases hhm : hourOfLocal (now + u'.tzOffset) ≠ dh ∨ minuteOfLocal (now + u'.tzOffset) ≠ dm
  · rw [if_pos hhm]; exact Or.inl rfl
  · rw [if_neg hhm]
    cases hs : notification_sent acc.ledger (digestKey u'.id (dayIndex (now + u'.tzOffset))) with
    | true => simp
    | false =>
      simp only [Bool.false_eq_true, if_false]
      cases hb : st.boards.find? (fun b => b.owner_id == u'.id) with
      | none => exact Or.inl rfl
      | some board =>
        dsimp only
        rw [hok u'.telegram_id (digestText st.tasks board.id u'.tzOffset wallNow)]
        simp

/-- A digest iteration whose keys are reported free of violations completes
normally, carrying exactly the state `digestStep` computes. -/
theorem digestStepE_ok_agree (now wallNow dh dm : Int) (st : DBState)
    (nOk : Nat → String → Bool) (aDup : String → Bool) (acc : ScanAcc) (u : UserRow)
    (h : aDup (digestKey u.id (dayIndex (now + u.tzOffset))) = false ∧
      aDup (digestKey u.id (dayIndex (now + u.tzOffset)) ++ ":failed:" ++
        intDecimal now) = false) :
    digestStepE now wallNow dh dm st nOk aDup acc u =
      Except.ok (digestStep now wallNow dh dm st nOk aDup acc u) := by
  unfold digestStepE digestStep
  dsimp only
  by_cases hhm : hourOfLocal (now + u.tzOffset) ≠ dh ∨ minuteOfLocal (now + u.tzOffset) ≠ dm
  · rw [if_pos hhm, if_pos hhm]
  · rw [if_neg hhm, if_neg hhm]
    cases hs : notification_sent acc.ledger (digestKey u.id (dayIndex (now + u.tzOffset))) with
    | true => simp [hs]
    | false =>
      simp only [hs, Bool.false_eq_true, if_false]
      cases hb : st.boards.find? (fun b => b.owner_id == u.id) with
      | none => rfl
      | some board =>
        dsimp only
        cases ho : nOk u.telegram_id (digestText st.tasks board.id u.tzOffset wallNow) with
        | true => simp [ho, h.1]
        | false => simp [ho, h.2]

/-- With no uniqueness violation anywhere, the digest-scan loop completes
normally and its state is exactly `process_digest`. -/
theorem process_digestE_of_no_dup (now wallNow dh dm : Int) (nOk : Nat → String → Bool)
    (st : DBState) :
    process_digestE now wallNow dh dm nOk (fun _ => false) st =
      Except.ok (process_digest now wallNow dh dm nOk (fun _ => false) st) := by
  unfold process_digestE process_digest
  exact scanFoldE_ok_of_steps _ _ _ _
    (fun acc' x _ => digestStepE_ok_agree now wallNow dh dm st nOk (fun _ => false) acc' x
      ⟨rfl, rfl⟩)

/-- With no uniqueness violation anywhere, the full digest tick commits and
coincides with `run_digest`. -/
theorem run_digestE_of_no_dup (now wallNow dh dm : Int) (nOk : Nat → String → Bool)
    (st : DBState) :
    run_digestE now wallNow dh dm nOk (fun _ => false) st =
      ((run_digest now wallNow dh dm nOk (fun _ => false) st).1,
       (run_digest now wallNow dh dm nOk (fun _ => false) st).2, true) := by
  unfold run_digestE run_digest
  rw [process_digestE_of_no_dup]

/-- With a successful notifier and no storage race, a digest scan never
touches the rows of a key that is no user's canonical key for this tick. -/
theorem digest_fold_key_preserved (now wallNow dh dm : Int) (st : DBState)
    (nOk : Nat → String → Bool) (hok : ∀ c s, nOk c s = true) (k : String) :
    ∀ (l : List UserRow) (acc : ScanAcc),
      (∀ u' ∈ l, digestKey u'.id (dayIndex (now + u'.tzOffset)) ≠ k) →
      rowsForKey ((l.foldl (digestStep now wallNow dh dm st nOk (fun _ => false)) acc).ledger) k =
        rowsForKey acc.ledger k := by
  intro l
  induction l with
  | nil => intro acc _; rfl
  | cons x xs ih =>
    intro acc hk
    rw [List.foldl_cons]
    have hxs := ih (digestStep now wallNow dh dm st nOk (fun _ => false) acc x)
      (fun u' hu' => hk u' (List.mem_cons_of_mem x hu'))
    rw [hxs]
    rcases digestStep_ledger_cases now wallNow dh dm st nOk x acc hok with h | h
    · rw [h]
    · rw [h, rowsForKey_append, rowsForKey_singleton_ne _ _ (hk x (List.mem_cons_self x xs)),
        List.append_nil]

/-- Fold preservation across users with a different id. -/
theorem digest_fold_others (now wallNow dh dm : Int) (st : DBState)
    (nOk : Nat → String → Bool) (aDup : String → Bool) (uid d : Nat) :
    ∀ (l : List UserRow) (acc : ScanAcc), (∀ u' ∈ l, u'.id ≠ uid) →
      rowsForUser ((l.foldl (digestStep now wallNow dh dm st nOk aDup) acc).ledger) uid =
        rowsForUser acc.ledger uid ∧
      rowsForKey ((l.foldl (digestStep now wallNow dh dm st nOk aDup) acc).ledger)
          (digestKey uid d) =
        rowsForKey acc.ledger (digestKey uid d) ∧
      msgsForTag ((l.foldl (digestStep now wallNow dh dm st nOk aDup) acc).msgs) uid =
        msgsForTag acc.msgs uid := by
  intro l
  induction l with
  | nil => intro acc _; exact ⟨rfl, rfl, rfl⟩
  | cons x xs ih =>
    intro acc h
    rw [List.foldl_cons]
    have hx := digestStep_others now wallNow dh dm st nOk aDup acc x uid d
      (h x (List.mem_cons_self x xs))
    have hxs := ih (digestStep now wallNow dh dm st nOk aDup acc x)
      (fun u' hu' => h u' (List.mem_cons_of_mem x hu'))
    exact ⟨hxs.1.trans hx.1, hxs.2.1.trans hx.2.1, hxs.2.2.trans hx.2.2⟩

/-- Distinct user primary keys make the digest-enabled user list's ids
distinct. -/
theorem digestUsers_ids_nodup (st : DBState) (hids : (st.users.map UserRow.id).Nodup) :
    ((st.users.filter (fun u => u.digest_enabled)).map UserRow.id).Nodup :=
  ((List.filter_sublist _).map UserRow.id).nodup hids

/-- Core digest-scan lemma, success case. -/
theorem digest_scan_success (st : DBState) (now wallNow dh dm : Int)
    (nOk : Nat → String → Bool) (u : UserRow) (board : BoardRow)
    (hok : ∀ c s, nOk c s = true)
    (hids : (st.users.map UserRow.id).Nodup)
    (hu : u ∈ st.users) (hen : u.digest_enabled = true)
    (hhm : ¬(hourOfLocal (now + u.tzOffset) ≠ dh ∨ minuteOfLocal (now + u.tzOffset) ≠ dm))
    (hs : notification_sent st.ledger (digestKey u.id (dayIndex (now + u.tzOffset))) = false)
    (hb : st.boards.find? (fun b => b.owner_id == u.id) = some board) :
    rowsForKey (process_digest now wallNow dh dm nOk (fun _ => false) st).ledger
        (digestKey u.id (dayIndex (now + u.tzOffset))) =
      [⟨some u.id, none, "digest", digestKey u.id (dayIndex (now + u.tzOffset)), "sent"⟩] ∧
    msgsForTag (process_digest now wallNow dh dm nOk (fun _ => false) st).msgs u.id =
      [⟨u.telegram_id, digestText st.tasks board.id u.tzOffset wallNow, u.id⟩] := by
  have humem : u ∈ st.users.filter (fun u' => u'.digest_enabled) :=
    List.mem_filter.mpr ⟨hu, hen⟩
  obtain ⟨l₁, l₂, hdec⟩ := List.append_of_mem humem
  have hnodup := digestUsers_ids_nodup st hids
  rw [hdec] at hnodup
  obtain ⟨hne₁, hne₂⟩ := nodup_split_ne UserRow.id l₁ l₂ u hnodup
  unfold process_digest
  rw [hdec, List.foldl_append, List.foldl_cons]
  set acc₀ : ScanAcc := ⟨st.ledger, []⟩ with hacc₀
  set acc₁ := l₁.foldl (digestStep now wallNow dh dm st nOk (fun _ => false)) acc₀ with hacc₁
  have hph₁ := digest_fold_others now wallNow dh dm st nOk (fun _ => false) u.id
    (dayIndex (now + u.tzOffset)) l₁ acc₀ hne₁
  have hrows₁ : rowsForKey acc₁.ledger (digestKey u.id (dayIndex (now + u.tzOffset))) = [] := by
    rw [← hacc₁] at hph₁
    rw [hph₁.2.1, hacc₀]
    exact (notification_sent_false_iff_rows _ _).mp hs
  have hmsgs₁ : msgsForTag acc₁.msgs u.id = [] := by
    rw [← hacc₁] at hph₁
    rw [hph₁.2.2, hacc₀]
    rfl
  have hsent₁ : notification_sent acc₁.ledger (digestKey u.id (dayIndex (now + u.tzOffset)))
      = false :=
    (notification_sent_false_iff_rows _ _).mpr hrows₁
  have hstep := digestStep_hit now wallNow dh dm st nOk u acc₁ board hhm hsent₁ hb
    (hok _ _)
  rw [hstep]
  set acc₂ : ScanAcc :=
    { ledger := acc₁.ledger ++ [⟨some u.id, none, "digest",
        digestKey u.id (dayIndex (now + u.tzOffset)), "sent"⟩],
      msgs := acc₁.msgs ++
        [⟨u.telegram_id, digestText st.tasks board.id u.tzOffset wallNow, u.id⟩] } with hacc₂
  have hph₂ := digest_fold_others now wallNow dh dm st nOk (fun _ => false) u.id
    (dayIndex (now + u.tzOffset)) l₂ acc₂ hne₂
  constructor
  · rw [hph₂.2.1, hacc₂]
    show rowsForKey (acc₁.ledger ++ _) _ = _
    rw [rowsForKey_append, hrows₁]
    simp [rowsForKey]
  · rw [hph₂.2.2, hacc₂]
    show msgsForTag (acc₁.msgs ++ _) _ = _
    rw [msgsForTag_append, hmsgs₁]
    simp [msgsForTag]

/-- C3: Non-blocking failure: when the notifier fails for one candidate, the
scan still processes every remaining candidate; the failing candidate gets a
`failed` ledger row under `canonicalKey ++ ":failed:" ++ unixTimestamp`, no
message and no `sent` row, while any other candidate with a working send is
delivered and recorded normally — the failure never escapes the
per-candidate handling. -/
theorem C3_nonblocking_failure (st : DBState) (now : Int) (nOk : Nat → String → Bool)
    (t₁ : TaskRow) (u₁ : UserRow) (r₁ : Int) (t₂ : TaskRow) (u₂ : UserRow) (r₂ : Int)
    (hids : (st.tasks.map TaskRow.id).Nodup)
    (hmem₁ : (t₁, u₁) ∈ reminderCandidates st now)
    (hmem₂ : (t₂, u₂) ∈ reminderCandidates st now)
    (hr₁ : t₁.reminder_at = some r₁) (hr₂ : t₂.reminder_at = some r₂)
    (hs₁ : notification_sent st.ledger (reminderKey t₁.id r₁) = false)
    (hs₂ : notification_sent st.ledger (reminderKey t₂.id r₂) = false)
    (hno : nOk u₁.telegram_id (reminderText t₁ u₁) = false)
    (hok₂ : nOk u₂.telegram_id (reminderText t₂ u₂) = true) :
    (⟨some u₁.id, some t₁.id, "reminder",
        reminderKey t₁.id r₁ ++ ":failed:" ++ intDecimal now, "failed"⟩ : LogRow) ∈
      (process_reminders now nOk (fun _ => false) st).ledger ∧
    msgsForTag (process_reminders now nOk (fun _ => false) st).msgs t₁.id = [] ∧
    rowsForKey (process_reminders now nOk (fun _ => false) st).ledger (reminderKey t₁.id r₁)
      = [] ∧
    rowsForKey (process_reminders now nOk (fun _ => false) st).ledger (reminderKey t₂.id r₂)
      = [⟨some u₂.id, some t₂.id, "reminder", reminderKey t₂.id r₂, "sent"⟩] ∧
    msgsForTag (process_reminders now nOk (fun _ => false) st).msgs t₂.id =
      [⟨u₂.telegram_id, reminderText t₂ u₂, t₂.id⟩] := by
  obtain ⟨hfail, hnok, hnomsg⟩ :=
    reminder_scan_failure st now nOk t₁ u₁ r₁ hids hmem₁ hr₁ hs₁ hno
  obtain ⟨hrows₂, hmsgs₂⟩ :=
    reminder_scan_success st now nOk t₂ u₂ r₂ hids hmem₂ hr₂ hs₂ hok₂
  exact ⟨hfail, hnomsg, hnok, hrows₂, hmsgs₂⟩

set_option maxRecDepth 400000 in
/-- Witness for C3 at a concrete two-candidate store: the notifier rejects
chat 100 (task 7) and accepts chat 200 (task 8). -/
theorem C3_nonblocking_failure_witness :
    ((⟨[⟨1, 100, 0, true⟩, ⟨2, 200, 0, true⟩], [⟨1, 1⟩, ⟨2, 2⟩],
        [⟨7, 1, some 1, "A", "", 2, "active", some 1771590600, some 1771587000, none⟩,
         ⟨8, 2, some 2, "B", "", 2, "active", some 1771590600, some 1771587000, none⟩],
        []⟩ : DBState).tasks.map TaskRow.id).Nodup ∧
    ((⟨7, 1, some 1, "A", "", 2, "active", some 1771590600, some 1771587000, none⟩,
        ⟨1, 100, 0, true⟩) ∈
      reminderCandidates
        ⟨[⟨1, 100, 0, true⟩, ⟨2, 200, 0, true⟩], [⟨1, 1⟩, ⟨2, 2⟩],
         [⟨7, 1, some 1, "A", "", 2, "active", some 1771590600, some 1771587000, none⟩,
          ⟨8, 2, some 2, "B", "", 2, "active", some 1771590600, some 1771587000, none⟩],
         []⟩ 1771587000) ∧
    ((⟨some 1, some 7, "reminder",
        reminderKey 7 1771587000 ++ ":failed:" ++ intDecimal 1771587000, "failed"⟩ : LogRow) ∈
      (process_reminders 1771587000 (fun c _ => c == 200) (fun _ => false)
        ⟨[⟨1, 100, 0, true⟩, ⟨2, 200, 0, true⟩], [⟨1, 1⟩, ⟨2, 2⟩],
         [⟨7, 1, some 1, "A", "", 2, "active", some 1771590600, some 1771587000, none⟩,
          ⟨8, 2, some 2, "B", "", 2, "active", some 1771590600, some 1771587000, none⟩],
         []⟩).ledger ∧
     msgsForTag (process_reminders 1771587000 (fun c _ => c == 200) (fun _ => false)
        ⟨[⟨1, 100, 0, true⟩, ⟨2, 200, 0, true⟩], [⟨1, 1⟩, ⟨2, 2⟩],
         [⟨7, 1, some 1, "A", "", 2, "active", some 1771590600, some 1771587000, none⟩,
          ⟨8, 2, some 2, "B", "", 2, "active", some 1771590600, some 1771587000, none⟩],
         []⟩).msgs 7 = [] ∧
     rowsForKey (process_reminders 1771587000 (fun c _ => c == 200) (fun _ => false)
        ⟨[⟨1, 100, 0, true⟩, ⟨2, 200, 0, true⟩], [⟨1, 1⟩, ⟨2, 2⟩],
         [⟨7, 1, some 1, "A", "", 2, "active", some 1771590600, some 1771587000, none⟩,
          ⟨8, 2, some 2, "B", "", 2, "active", some 1771590600, some 1771587000, none⟩],
         []⟩).ledger (reminderKey 7 1771587000) = [] ∧
     rowsForKey (process_reminders 1771587000 (fun c _ => c == 200) (fun _ => false)
        ⟨[⟨1, 100, 0, true⟩, ⟨2, 200, 0, true⟩], [⟨1, 1⟩, ⟨2, 2⟩],
         [⟨7, 1, some 1, "A", "", 2, "active", some 1771590600, some 1771587000, none⟩,
          ⟨8, 2, some 2, "B", "", 2, "active", some 1771590600, some 1771587000, none⟩],
         []⟩).ledger (reminderKey 8 1771587000) =
       [⟨some 2, some 8, "reminder", reminderKey 8 1771587000, "sent"⟩] ∧
     msgsForTag (process_reminders 1771587000 (fun c _ => c == 200) (fun _ => false)
        ⟨[⟨1, 100, 0, true⟩, ⟨2, 200, 0, true⟩], [⟨1, 1⟩, ⟨2, 2⟩],
         [⟨7, 1, some 1, "A", "", 2, "active", some 1771590600, some 1771587000, none⟩,
          ⟨8, 2, some 2, "B", "", 2, "active", some 1771590600, some 1771587000, none⟩],
         []⟩).msgs 8 =
       [⟨200, reminderText
          ⟨8, 2, some 2, "B", "", 2, "active", some 1771590600, some 1771587000, none⟩
          ⟨2, 200, 0, true⟩, 8⟩]) :=
  ⟨by decide, by decide,
    C3_nonblocking_failure
      ⟨[⟨1, 100, 0, true⟩, ⟨2, 200, 0, true⟩], [⟨1, 1⟩, ⟨2, 2⟩],
       [⟨7, 1, some 1, "A", "", 2, "active", some 1771590600, some 1771587000, none⟩,
        ⟨8, 2, some 2, "B", "", 2, "active", some 1771590600, some 1771587000, none⟩],
       []⟩ 1771587000 (fun c _ => c == 200)
      ⟨7, 1, some 1, "A", "", 2, "active", some 1771590600, some 1771587000, none⟩
      ⟨1, 100, 0, true⟩ 1771587000
      ⟨8, 2, some 2, "B", "", 2, "active", some 1771590600, some 1771587000, none⟩
      ⟨2, 200, 0, true⟩ 1771587000
      (by decide) (by decide) (by decide) rfl rfl (by decide) (by decide) (by decide)
      (by decide)⟩

set_option maxRecDepth 400000 in
/-- C4 counterexample: at a one-candidate store whose `sent` insert hits the
duplicate-key violation, the violation is not swallowed as "already sent":
the handler's own flush raises a pending-rollback error that escapes the
per-candidate handling, so the tick does crash (completed-normally flag
`false`), the commit is skipped and the store is returned unchanged — no row
at all is recorded for the event, contrary to processing "as if the existing
row won" — while the candidate's message had already gone out. -/
theorem C4_duplicate_key_counterexample :
    run_remindersE 1771587000 (fun _ _ => true) (fun _ => true)
        ⟨[⟨1, 100, 0, true⟩], [⟨1, 1⟩],
         [⟨7, 1, some 1, "T", "", 2, "active", some 1771590600, some 1771587000, none⟩],
         []⟩ =
      (⟨[⟨1, 100, 0, true⟩], [⟨1, 1⟩],
        [⟨7, 1, some 1, "T", "", 2, "active", some 1771590600, some 1771587000, none⟩],
        []⟩,
       [⟨100, reminderText
          ⟨7, 1, some 1, "T", "", 2, "active", some 1771590600, some 1771587000, none⟩
          ⟨1, 100, 0, true⟩, 7⟩],
       false) := by
  decide

/-- C4 (amended): a duplicate-key violation on the `sent` insert is not
swallowed as already-sent. The integrity error raised by the flush lands in
the blanket `except Exception` handler with the session's transaction
invalidated, so the handler's own `_log_notification` flush raises a
pending-rollback error that escapes the per-candidate handling: the scan
aborts without processing the remaining candidates, the commit is never
reached and the whole tick rolls back — the store is returned unchanged,
with neither a `sent` nor a `failed` row recorded for the event — while the
candidate's message (exactly one send attempt) had already been handed to
the bot before the violation. -/
theorem C4_duplicate_key_amended (st : DBState) (now : Int) (nOk : Nat → String → Bool)
    (aDup : String → Bool) (t : TaskRow) (u : UserRow) (r : Int)
    (hids : (st.tasks.map TaskRow.id).Nodup)
    (hmem : (t, u) ∈ reminderCandidates st now)
    (hr : t.reminder_at = some r)
    (hs : notification_sent st.ledger (reminderKey t.id r) = false)
    (hok : ∀ c s, nOk c s = true)
    (hdup : aDup (reminderKey t.id r) = true)
    (honly : ∀ k, aDup k = true → k = reminderKey t.id r) :
    (run_remindersE now nOk aDup st).1 = st ∧
    (run_remindersE now nOk aDup st).2.2 = false ∧
    msgsForTag (run_remindersE now nOk aDup st).2.1 t.id =
      [⟨u.telegram_id, reminderText t u, t.id⟩] ∧
    rowsForKey (run_remindersE now nOk aDup st).1.ledger (reminderKey t.id r) = [] := by
  obtain ⟨acc, hE, hrows, hmsgs, hrun⟩ :=
    reminder_scan_dupE st now nOk aDup t u r hids hmem hr hs hok hdup honly
  rw [hrun]
  exact ⟨rfl, rfl, hmsgs, (notification_sent_false_iff_rows _ _).mp hs⟩

set_option maxRecDepth 400000 in
/-- Witness for the amended C4 at a concrete one-candidate store whose
storage layer reports a duplicate-key violation exactly for the candidate's
canonical key. -/
theorem C4_duplicate_key_amended_witness :
    ((⟨[⟨1, 100, 0, true⟩], [⟨1, 1⟩],
        [⟨7, 1, some 1, "T", "", 2, "active", some 1771590600, some 1771587000, none⟩],
        []⟩ : DBState).tasks.map TaskRow.id).Nodup ∧
    ((⟨7, 1, some 1, "T", "", 2, "active", some 1771590600, some 1771587000, none⟩,
        ⟨1, 100, 0, true⟩) ∈
      reminderCandidates
        ⟨[⟨1, 100, 0, true⟩], [⟨1, 1⟩],
         [⟨7, 1, some 1, "T", "", 2, "active", some 1771590600, some 1771587000, none⟩],
         []⟩ 1771587000) ∧
    ((fun k => k == reminderKey 7 1771587000) (reminderKey 7 1771587000) = true) ∧
    (∀ k : String, (fun k' => k' == reminderKey 7 1771587000) k = true →
      k = reminderKey 7 1771587000) ∧
    ((run_remindersE 1771587000 (fun _ _ => true) (fun k => k == reminderKey 7 1771587000)
        ⟨[⟨1, 100, 0, true⟩], [⟨1, 1⟩],
         [⟨7, 1, some 1, "T", "", 2, "active", some 1771590600, some 1771587000, none⟩],
         []⟩).1 =
      ⟨[⟨1, 100, 0, true⟩], [⟨1, 1⟩],
       [⟨7, 1, some 1, "T", "", 2, "active", some 1771590600, some 1771587000, none⟩],
       []⟩ ∧
     (run_remindersE 1771587000 (fun _ _ => true) (fun k => k == reminderKey 7 1771587000)
        ⟨[⟨1, 100, 0, true⟩], [⟨1, 1⟩],
         [⟨7, 1, some 1, "T", "", 2, "active", some 1771590600, some 1771587000, none⟩],
         []⟩).2.2 = false ∧
     msgsForTag (run_remindersE 1771587000 (fun _ _ => true)
        (fun k => k == reminderKey 7 1771587000)
        ⟨[⟨1, 100, 0, true⟩], [⟨1, 1⟩],
         [⟨7, 1, some 1, "T", "", 2, "active", some 1771590600, some 1771587000, none⟩],
         []⟩).2.1 7 =
       [⟨100, reminderText
          ⟨7, 1, some 1, "T", "", 2, "active", some 1771590600, some 1771587000, none⟩
          ⟨1, 100, 0, true⟩, 7⟩] ∧
     rowsForKey (run_remindersE 1771587000 (fun _ _ => true)
        (fun k => k == reminderKey 7 1771587000)
        ⟨[⟨1, 100, 0, true⟩], [⟨1, 1⟩],
         [⟨7, 1, some 1, "T", "", 2, "active", some 1771590600, some 1771587000, none⟩],
         []⟩).1.ledger (reminderKey 7 1771587000) = []) :=
  ⟨by decide, by decide, by decide, fun k hk => eq_of_beq hk,
    C4_duplicate_key_amended
      ⟨[⟨1, 100, 0, true⟩], [⟨1, 1⟩],
       [⟨7, 1, some 1, "T", "", 2, "active", some 1771590600, some 1771587000, none⟩],
       []⟩ 1771587000 (fun _ _ => true) (fun k => k == reminderKey 7 1771587000)
      ⟨7, 1, some 1, "T", "", 2, "active", some 1771590600, some 1771587000, none⟩
      ⟨1, 100, 0, true⟩ 1771587000
      (by decide) (by decide) rfl rfl (fun _ _ => rfl) (by decide)
      (fun k hk => eq_of_beq hk)⟩

set_option maxRecDepth 400000 in
/-- Witness for C1 at a concrete one-task store scanned twice at the same
instant with an always-successful notifier. -/
theorem C1_reminder_idempotence_witness :
    (∀ c s, (fun (_ : Nat) (_ : String) => true) c s = true) ∧
    ((⟨[⟨1, 100, 0, true⟩], [⟨1, 1⟩],
        [⟨7, 1, some 1, "T", "", 2, "active", some 1771590600, some 1771587000, none⟩],
        []⟩ : DBState).tasks.map TaskRow.id).Nodup ∧
    (⟨7, 1, some 1, "T", "", 2, "active", some 1771590600, some 1771587000, none⟩ ∈
      (⟨[⟨1, 100, 0, true⟩], [⟨1, 1⟩],
        [⟨7, 1, some 1, "T", "", 2, "active", some 1771590600, some 1771587000, none⟩],
        []⟩ : DBState).tasks) ∧
    (∃ u : UserRow,
      rowsForKey (run_reminders 1771587000 (fun _ _ => true) (fun _ => false)
          (run_reminders 1771587000 (fun _ _ => true) (fun _ => false)
            ⟨[⟨1, 100, 0, true⟩], [⟨1, 1⟩],
             [⟨7, 1, some 1, "T", "", 2, "active", some 1771590600, some 1771587000, none⟩],
             []⟩).1).1.ledger (reminderKey 7 1771587000) =
        [⟨some u.id, some 7, "reminder", reminderKey 7 1771587000, "sent"⟩] ∧
      msgsForTag ((run_reminders 1771587000 (fun _ _ => true) (fun _ => false)
            ⟨[⟨1, 100, 0, true⟩], [⟨1, 1⟩],
             [⟨7, 1, some 1, "T", "", 2, "active", some 1771590600, some 1771587000, none⟩],
             []⟩).2 ++
          (run_reminders 1771587000 (fun _ _ => true) (fun _ => false)
            (run_reminders 1771587000 (fun _ _ => true) (fun _ => false)
              ⟨[⟨1, 100, 0, true⟩], [⟨1, 1⟩],
               [⟨7, 1, some 1, "T", "", 2, "active", some 1771590600, some 1771587000, none⟩],
               []⟩).1).2) 7 =
        [⟨u.telegram_id, reminderText
            ⟨7, 1, some 1, "T", "", 2, "active", some 1771590600, some 1771587000, none⟩ u, 7⟩] ∧
      (run_reminders 1771587000 (fun _ _ => true) (fun _ => false)
          (run_reminders 1771587000 (fun _ _ => true) (fun _ => false)
            ⟨[⟨1, 100, 0, true⟩], [⟨1, 1⟩],
             [⟨7, 1, some 1, "T", "", 2, "active", some 1771590600, some 1771587000, none⟩],
             []⟩).1).1.ledger =
        (run_reminders 1771587000 (fun _ _ => true) (fun _ => false)
          ⟨[⟨1, 100, 0, true⟩], [⟨1, 1⟩],
           [⟨7, 1, some 1, "T", "", 2, "active", some 1771590600, some 1771587000, none⟩],
           []⟩).1.ledger ∧
      (run_reminders 1771587000 (fun _ _ => true) (fun _ => false)
          (run_reminders 1771587000 (fun _ _ => true) (fun _ => false)
            ⟨[⟨1, 100, 0, true⟩], [⟨1, 1⟩],
             [⟨7, 1, some 1, "T", "", 2, "active", some 1771590600, some 1771587000, none⟩],
             []⟩).1).2 = []) :=
  ⟨fun _ _ => rfl, by decide, by decide,
    C1_reminder_idempotence
      ⟨[⟨1, 100, 0, true⟩], [⟨1, 1⟩],
       [⟨7, 1, some 1, "T", "", 2, "active", some 1771590600, some 1771587000, none⟩],
       []⟩ 1771587000 (fun _ _ => true)
      ⟨7, 1, some 1, "T", "", 2, "active", some 1771590600, some 1771587000, none⟩ 1771587000
      (fun _ _ => rfl) (by decide) (by decide) (by decide) (by decide) rfl rfl (by decide)
      rfl⟩

/-- Under distinct user primary keys, a digest-enabled user is the only list
element with its id. -/
theorem digest_one_user (st : DBState) (u : UserRow)
    (hids : (st.users.map UserRow.id).Nodup) (hu : u ∈ st.users) :
    ∀ u' ∈ st.users.filter (fun x => x.digest_enabled), u'.id = u.id → u' = u := by
  intro u' hu' he
  exact List.inj_on_of_nodup_map hids (List.mem_filter.mp hu').1 hu he

/-- C8: Boardless-user digest skip: a digest-enabled user whose local time
matches the configured digest minute but who owns no board gets no message
and no ledger row from the digest scan; the scan completes normally. -/
theorem C8_boardless_digest_skip (st : DBState) (now wallNow dh dm : Int)
    (nOk : Nat → String → Bool) (aDup : String → Bool) (u : UserRow)
    (hids : (st.users.map UserRow.id).Nodup)
    (hu : u ∈ st.users) (hen : u.digest_enabled = true)
    (hhm : hourOfLocal (now + u.tzOffset) = dh ∧ minuteOfLocal (now + u.tzOffset) = dm)
    (hb : st.boards.find? (fun b => b.owner_id == u.id) = none) :
    rowsForUser (run_digest now wallNow dh dm nOk aDup st).1.ledger u.id =
      rowsForUser st.ledger u.id ∧
    msgsForTag (run_digest now wallNow dh dm nOk aDup st).2 u.id = [] := by
  have hskip := digestStep_skip_forall now wallNow dh dm st nOk aDup u (Or.inr hb)
  have hone := digest_one_user st u hids hu
  have h := digest_fold_user_skip now wallNow dh dm st nOk aDup u 0 hskip
    (st.users.filter (fun x => x.digest_enabled)) ⟨st.ledger, []⟩ hone
  exact ⟨h.1, h.2.2⟩

set_option maxRecDepth 400000 in
/-- Witness for C8: a single digest-enabled user with no board, tick exactly
at the configured minute. -/
theorem C8_boardless_digest_skip_witness :
    ((⟨[⟨1, 100, 10800, true⟩], [], [], []⟩ : DBState).users.map UserRow.id).Nodup ∧
    (⟨1, 100, 10800, true⟩ ∈ (⟨[⟨1, 100, 10800, true⟩], [], [], []⟩ : DBState).users) ∧
    (hourOfLocal ((1771567200 : Int) + 10800) = 9 ∧
      minuteOfLocal ((1771567200 : Int) + 10800) = 0) ∧
    ((⟨[⟨1, 100, 10800, true⟩], [], [], []⟩ : DBState).boards.find?
        (fun b => b.owner_id == 1) = none) ∧
    (rowsForUser (run_digest 1771567200 1771567200 9 0 (fun _ _ => true) (fun _ => false)
        ⟨[⟨1, 100, 10800, true⟩], [], [], []⟩).1.ledger 1 =
      rowsForUser (⟨[⟨1, 100, 10800, true⟩], [], [], []⟩ : DBState).ledger 1 ∧
     msgsForTag (run_digest 1771567200 1771567200 9 0 (fun _ _ => true) (fun _ => false)
        ⟨[⟨1, 100, 10800, true⟩], [], [], []⟩).2 1 = []) :=
  ⟨by decide, by decide, by decide, by decide,
    C8_boardless_digest_skip ⟨[⟨1, 100, 10800, true⟩], [], [], []⟩ 1771567200 1771567200 9 0
      (fun _ _ => true) (fun _ => false) ⟨1, 100, 10800, true⟩
      (by decide) (by decide) rfl (by decide) (by decide)⟩

theorem rows_nonempty_sent (l : List LogRow) (k : String) (h : rowsForKey l k ≠ []) :
    notification_sent l k = true := by
  cases hs : notification_sent l k with
  | true => rfl
  | false => exact absurd ((notification_sent_false_iff_rows l k).mp hs) h

/-- C2: Digest once-per-local-day: the digest scan sends for a user only when
the scan instant's local hour and minute equal the configured digest minute;
a matching tick produces one `sent` row under the user's local-date key; a
second matching tick on the same local calendar day is a no-op for that
user; and a matching tick on the next local calendar day produces a new,
independent send. -/
theorem C2_digest_once_per_day (st : DBState) (dh dm : Int) (nOk : Nat → String → Bool)
    (u : UserRow) (board : BoardRow) (t₁ w₁ t₂ w₂ t₃ w₃ : Int)
    (hok : ∀ c s, nOk c s = true)
    (hids : (st.users.map UserRow.id).Nodup)
    (hu : u ∈ st.users) (hen : u.digest_enabled = true)
    (hb : st.boards.find? (fun b => b.owner_id == u.id) = some board)
    (hhm₁ : hourOfLocal (t₁ + u.tzOffset) = dh ∧ minuteOfLocal (t₁ + u.tzOffset) = dm)
    (hs₁ : notification_sent st.ledger (digestKey u.id (dayIndex (t₁ + u.tzOffset))) = false)
    (hhm₂ : hourOfLocal (t₂ + u.tzOffset) = dh ∧ minuteOfLocal (t₂ + u.tzOffset) = dm)
    (hday₂ : dayIndex (t₂ + u.tzOffset) = dayIndex (t₁ + u.tzOffset))
    (hhm₃ : hourOfLocal (t₃ + u.tzOffset) = dh ∧ minuteOfLocal (t₃ + u.tzOffset) = dm)
    (hday₃ : dayIndex (t₃ + u.tzOffset) = dayIndex (t₁ + u.tzOffset) + 1)
    (hbound : dayIndex (t₁ + u.tzOffset) + 1 ≤ 3652058)
    (hs₃ : notification_sent st.ledger (digestKey u.id (dayIndex (t₃ + u.tzOffset))) = false) :
    (∀ tq wq : Int,
      (hourOfLocal (tq + u.tzOffset) ≠ dh ∨ minuteOfLocal (tq + u.tzOffset) ≠ dm) →
      rowsForUser (run_digest tq wq dh dm nOk (fun _ => false) st).1.ledger u.id =
        rowsForUser st.ledger u.id ∧
      msgsForTag (run_digest tq wq dh dm nOk (fun _ => false) st).2 u.id = []) ∧
    rowsForKey (run_digest t₁ w₁ dh dm nOk (fun _ => false) st).1.ledger
        (digestKey u.id (dayIndex (t₁ + u.tzOffset))) =
      [⟨some u.id, none, "digest", digestKey u.id (dayIndex (t₁ + u.tzOffset)), "sent"⟩] ∧
    rowsForKey (run_digest t₂ w₂ dh dm nOk (fun _ => false)
          (run_digest t₁ w₁ dh dm nOk (fun _ => false) st).1).1.ledger
        (digestKey u.id (dayIndex (t₁ + u.tzOffset))) =
      [⟨some u.id, none, "digest", digestKey u.id (dayIndex (t₁ + u.tzOffset)), "sent"⟩] ∧
    rowsForUser (run_digest t₂ w₂ dh dm nOk (fun _ => false)
          (run_digest t₁ w₁ dh dm nOk (fun _ => false) st).1).1.ledger u.id =
      rowsForUser (run_digest t₁ w₁ dh dm nOk (fun _ => false) st).1.ledger u.id ∧
    msgsForTag (run_digest t₂ w₂ dh dm nOk (fun _ => false)
        (run_digest t₁ w₁ dh dm nOk (fun _ => false) st).1).2 u.id = [] ∧
    rowsForKey (run_digest t₃ w₃ dh dm nOk (fun _ => false)
          (run_digest t₁ w₁ dh dm nOk (fun _ => false) st).1).1.ledger
        (digestKey u.id (dayIndex (t₃ + u.tzOffset))) =
      [⟨some u.id, none, "digest", digestKey u.id (dayIndex (t₃ + u.tzOffset)), "sent"⟩] ∧
    msgsForTag (run_digest t₃ w₃ dh dm nOk (fun _ => false)
        (run_digest t₁ w₁ dh dm nOk (fun _ => false) st).1).2 u.id =
      [⟨u.telegram_id, digestText st.tasks board.id u.tzOffset w₃, u.id⟩] := by
  have hone := digest_one_user st u hids hu
  have hhm₁' : ¬(hourOfLocal (t₁ + u.tzOffset) ≠ dh ∨ minuteOfLocal (t₁ + u.tzOffset) ≠ dm) := by
    rintro (h | h)
    · exact h hhm₁.1
    · exact h hhm₁.2
  have hhm₃' : ¬(hourOfLocal (t₃ + u.tzOffset) ≠ dh ∨ minuteOfLocal (t₃ + u.tzOffset) ≠ dm) := by
    rintro (h | h)
    · exact h hhm₃.1
    · exact h hhm₃.2
  obtain ⟨hrows₁, hmsgs₁⟩ :=
    digest_scan_success st t₁ w₁ dh dm nOk u board hok hids hu hen hhm₁' hs₁ hb
  refine ⟨?_, hrows₁, ?_⟩
  · intro tq wq hq
    have hskip := digestStep_skip_forall tq wq dh dm st nOk (fun _ => false) u (Or.inl hq)
    have h := digest_fold_user_skip tq wq dh dm st nOk (fun _ => false) u 0 hskip
      (st.users.filter (fun x => x.digest_enabled)) ⟨st.ledger, []⟩ hone
    exact ⟨h.1, h.2.2⟩
  -- scans 2 and 3 run on the committed state of scan 1
  set st₁ := (run_digest t₁ w₁ dh dm nOk (fun _ => false) st).1 with hst₁
  have hsent₁ : notification_sent st₁.ledger (digestKey u.id (dayIndex (t₁ + u.tzOffset)))
      = true := by
    apply rows_nonempty_sent
    intro h
    rw [show st₁.ledger = (process_digest t₁ w₁ dh dm nOk (fun _ => false) st).ledger from rfl]
      at h
    rw [hrows₁] at h
    cases h
  have hkey₂ : digestKey u.id (dayIndex (t₂ + u.tzOffset)) =
      digestKey u.id (dayIndex (t₁ + u.tzOffset)) := by rw [hday₂]
  have hsent₂ : notification_sent st₁.ledger (digestKey u.id (dayIndex (t₂ + u.tzOffset)))
      = true := by rw [hkey₂]; exact hsent₁
  have h₂ := digest_fold_user_sent t₂ w₂ dh dm st₁ nOk (fun _ => false) u
    (dayIndex (t₁ + u.tzOffset)) (st₁.users.filter (fun x => x.digest_enabled))
    ⟨st₁.ledger, []⟩ hone hsent₂
  refine ⟨?_, h₂.1, h₂.2.2, ?_⟩
  · have := h₂.2.1
    exact this.trans hrows₁
  -- scan 3: the next-day key is untouched by scan 1
  have hkey₃ : ∀ u' ∈ st.users.filter (fun x => x.digest_enabled),
      digestKey u'.id (dayIndex (t₁ + u'.tzOffset)) ≠
        digestKey u.id (dayIndex (t₃ + u.tzOffset)) := by
    intro u' hu' he
    by_cases hid : u'.id = u.id
    · have hu'u : u' = u := hone u' hu' hid
      rw [hu'u] at he
      have hd := digestKey_ne_of_day_ne u.id (dayIndex (t₁ + u.tzOffset))
        (dayIndex (t₃ + u.tzOffset)) (by omega) (by omega) (by omega)
      exact hd he
    · exact hid (digestKey_inj _ _ _ _ he).1
  have hpres₃ : rowsForKey st₁.ledger (digestKey u.id (dayIndex (t₃ + u.tzOffset))) = [] := by
    rw [show st₁.ledger = (process_digest t₁ w₁ dh dm nOk (fun _ => false) st).ledger from rfl]
    unfold process_digest
    rw [digest_fold_key_preserved t₁ w₁ dh dm st nOk hok _ _ ⟨st.ledger, []⟩ hkey₃]
    exact (notification_sent_false_iff_rows _ _).mp hs₃
  have hs₃' : notification_sent st₁.ledger (digestKey u.id (dayIndex (t₃ + u.tzOffset)))
      = false := (notification_sent_false_iff_rows _ _).mpr hpres₃
  obtain ⟨hrows₃, hmsgs₃⟩ :=
    digest_scan_success st₁ t₃ w₃ dh dm nOk u board hok hids hu hen hhm₃' hs₃' hb
  exact ⟨hrows₃, hmsgs₃⟩

set_option maxRecDepth 400000 in
/-- Witness for C2: a Moscow-offset user with digest at 09:00 local; matching
ticks at 09:00:00 and 09:00:30 on 2026-02-20 and at 09:00:00 the next day. -/
theorem C2_digest_once_per_day_witness :
    (∀ c s, (fun (_ : Nat) (_ : String) => true) c s = true) ∧
    ((⟨[⟨1, 100, 10800, true⟩], [⟨1, 1⟩], [], []⟩ : DBState).users.map UserRow.id).Nodup ∧
    (⟨1, 100, 10800, true⟩ ∈ (⟨[⟨1, 100, 10800, true⟩], [⟨1, 1⟩], [], []⟩ : DBState).users) ∧
    ((⟨[⟨1, 100, 10800, true⟩], [⟨1, 1⟩], [], []⟩ : DBState).boards.find?
      (fun b => b.owner_id == 1) = some ⟨1, 1⟩) ∧
    (hourOfLocal ((1771567200 : Int) + 10800) = 9 ∧
      minuteOfLocal ((1771567200 : Int) + 10800) = 0) ∧
    (dayIndex ((1771567230 : Int) + 10800) = dayIndex ((1771567200 : Int) + 10800)) ∧
    (dayIndex ((1771653600 : Int) + 10800) = dayIndex ((1771567200 : Int) + 10800) + 1) ∧
    (dayIndex ((1771567200 : Int) + 10800) + 1 ≤ 3652058) ∧
    msgsForTag (run_digest 1771567230 1771567230 9 0 (fun _ _ => true) (fun _ => false)
        (run_digest 1771567200 1771567200 9 0 (fun _ _ => true) (fun _ => false)
          ⟨[⟨1, 100, 10800, true⟩], [⟨1, 1⟩], [], []⟩).1).2 1 = [] ∧
    rowsForKey (run_digest 1771653600 1771653600 9 0 (fun _ _ => true) (fun _ => false)
          (run_digest 1771567200 1771567200 9 0 (fun _ _ => true) (fun _ => false)
            ⟨[⟨1, 100, 10800, true⟩], [⟨1, 1⟩], [], []⟩).1).1.ledger
        (digestKey 1 (dayIndex ((1771653600 : Int) + 10800))) =
      [⟨some 1, none, "digest", digestKey 1 (dayIndex ((1771653600 : Int) + 10800)), "sent"⟩] := by
  refine ⟨fun _ _ => rfl, by decide, by decide, by decide, by decide, by decide, by decide,
    by decide, ?_, ?_⟩
  · exact (C2_digest_once_per_day ⟨[⟨1, 100, 10800, true⟩], [⟨1, 1⟩], [], []⟩ 9 0
      (fun _ _ => true) ⟨1, 100, 10800, true⟩ ⟨1, 1⟩
      1771567200 1771567200 1771567230 1771567230 1771653600 1771653600
      (fun _ _ => rfl) (by decide) (by decide) rfl (by decide) (by decide) rfl
      (by decide) (by decide) (by decide) (by decide) (by decide) rfl).2.2.2.2.1
  · exact (C2_digest_once_per_day ⟨[⟨1, 100, 10800, true⟩], [⟨1, 1⟩], [], []⟩ 9 0
      (fun _ _ => true) ⟨1, 100, 10800, true⟩ ⟨1, 1⟩
      1771567200 1771567200 1771567230 1771567230 1771653600 1771653600
      (fun _ _ => rfl) (by decide) (by decide) rfl (by decide) (by decide) rfl
      (by decide) (by decide) (by decide) (by decide) (by decide) rfl).2.2.2.2.2.1
